import Mathlib

/-!
# CRM system: customer repository, product counters and reports

A shallow embedding of `src/CRM/main.js` and of the report computations of
`src/reports.js`.  The module-level variables `customers` and `products`, the
two `localStorage` keys the file writes and `window.customerToDelete` become the
fields of `AppState`; every event handler becomes a function from a state and
the values it reads from the page (form fields, the clock) to the next state.
The report functions become functions of the customer list, the counters and
the clock.

Conventions of the embedding

* A JavaScript string is a Lean `String`.
* `Date.now()` is a natural number of milliseconds, and `Date.now().toString()`
  is its decimal rendering `Nat.repr`.
* `new Date().toISOString()` is recorded as the instant (milliseconds since the
  epoch) that the ISO string denotes.
* A `localStorage` blob holds the value that `JSON.stringify` serialised.
* `showMessage` appends to the log `AppState.messages`; DOM rendering
  (`updateStatistics`, `renderCustomersTable`, modals) is not part of the state.
* A number is the rational it denotes, and arithmetic takes the rounding of its
  results as a parameter (`binary64` for double precision, `id` for exact
  arithmetic).  `Products` holds finite counters; the counters with a price or
  capital of `Infinity`, which `handleUpdateProducts` accepts, are `JsProducts`.
* An object filled key by key is a list of key/value pairs (`Dict`).
-/

namespace CRM

/-! ## Strings -/

/-- Code points removed by `String.prototype.trim`: the ECMAScript `WhiteSpace`
and `LineTerminator` productions. -/
def isTrimChar (c : Char) : Bool :=
  let n := c.toNat
  n == 0x0009 || n == 0x000A || n == 0x000B || n == 0x000C || n == 0x000D ||
  n == 0x0020 || n == 0x00A0 || n == 0x1680 || (0x2000 ≤ n && n ≤ 0x200A) ||
  n == 0x2028 || n == 0x2029 || n == 0x202F || n == 0x205F || n == 0x3000 ||
  n == 0xFEFF

/-- The method `String.prototype.trim`: strip leading and trailing white space. -/
def trim (s : String) : String :=
  ⟨((s.data.dropWhile isTrimChar).reverse.dropWhile isTrimChar).reverse⟩

/-- The expression `a || b` on strings: the empty string is the only falsy one. -/
def orElse (a b : String) : String :=
  if a = "" then b else a

/-- The method `String.prototype.includes`: `needle` occurs in `hay` as a
contiguous run of characters. -/
def includes (hay needle : String) : Bool :=
  hay.data.tails.any (fun t => needle.data.isPrefixOf t)

/-! ## Data model -/

/-- One customer record, as built by `handleAddCustomer`; `lastModified` is
absent until `handleEditCustomer` sets it. -/
structure Customer where
  id : String
  name : String
  phone : String
  address : String
  email : String
  category : String
  notes : String
  dateAdded : Nat
  lastModified : Option Nat
  deriving DecidableEq, Repr

/-- The global `products` object with a finite price and capital; `JsProducts`
also holds the counters in which one of them is `Infinity`. -/
structure Products where
  total : Int
  sold : Int
  price : Rat
  capital : Rat
  deriving DecidableEq, Repr

/-- The keys `crm_customers` and `crm_products` of `localStorage`; `none` is an
absent key. -/
structure Storage where
  crm_customers : Option (List Customer)
  crm_products : Option Products
  deriving DecidableEq, Repr

/-- Second argument of `showMessage`. -/
inductive MessageType where
  | success
  | error
  deriving DecidableEq, Repr

/-- One call of `showMessage`. -/
structure Message where
  text : String
  type : MessageType
  deriving DecidableEq, Repr

/-- The mutable state `main.js` works on. -/
structure AppState where
  customers : List Customer
  products : Products
  storage : Storage
  customerToDelete : Option Customer
  messages : List Message
  deriving DecidableEq, Repr

/-- The state of a freshly loaded page with an empty `localStorage`. -/
def AppState.initial : AppState where
  customers := []
  products := { total := 0, sold := 0, price := 0, capital := 0 }
  storage := { crm_customers := none, crm_products := none }
  customerToDelete := none
  messages := []

/-- The function `saveDataToStorage`: both blobs are rewritten from memory. -/
def saveDataToStorage (s : AppState) : AppState :=
  { s with storage := { crm_customers := some s.customers, crm_products := some s.products } }

/-- The function `showMessage`. -/
def showMessage (s : AppState) (text : String) (type : MessageType) : AppState :=
  { s with messages := s.messages ++ [{ text := text, type := type }] }

/-! ## Adding a customer -/

/-- The values of the add-form fields read by `handleAddCustomer`. -/
structure AddForm where
  customerName : String
  customerPhone : String
  customerAddress : String
  customerEmail : String
  customerCategory : String
  customerNotes : String
  deriving DecidableEq, Repr

/-- The object `customerData` of `handleAddCustomer`; `idNow` is the reading of
`Date.now()` and `dateNow` the instant of `new Date()`. -/
def customerData (form : AddForm) (idNow dateNow : Nat) : Customer where
  id := Nat.repr idNow
  name := trim form.customerName
  phone := trim form.customerPhone
  address := trim form.customerAddress
  email := orElse (trim form.customerEmail) "N/A"
  category := form.customerCategory
  notes := orElse (trim form.customerNotes) ""
  dateAdded := dateNow
  lastModified := none

/-- The handler `handleAddCustomer`. -/
def handleAddCustomer (s : AppState) (form : AddForm) (idNow dateNow : Nat) : AppState :=
  let data := customerData form idNow dateNow
  if data.name = "" ∨ data.phone = "" ∨ data.address = "" then
    showMessage s "Please fill in all required fields." .error
  else if s.customers.any (fun customer => customer.phone == data.phone) then
    showMessage s "A customer with this phone number already exists." .error
  else
    let s1 := { s with customers := s.customers ++ [data] }
    let s2 := saveDataToStorage s1
    showMessage s2 "Customer added successfully!" .success

/-! ## Editing a customer -/

/-- The lookup `customers.find(c => c.id === customerId)` shared by
`editCustomer` and `deleteCustomer`. -/
def findById (customers : List Customer) (customerId : String) : Option Customer :=
  customers.find? (fun c => c.id == customerId)

/-- The values of the edit-form fields read by `handleEditCustomer`. -/
structure EditForm where
  editCustomerId : String
  editCustomerName : String
  editCustomerPhone : String
  editCustomerAddress : String
  editCustomerEmail : String
  editCustomerCategory : String
  editCustomerNotes : String
  deriving DecidableEq, Repr

/-- The object literal `{ ...old, name: ..., lastModified: ... }` of
`handleEditCustomer`: the spread keeps `id` and `dateAdded`. -/
def editedCustomer (old : Customer) (form : EditForm) (now : Nat) : Customer :=
  { old with
    name := trim form.editCustomerName
    phone := trim form.editCustomerPhone
    address := trim form.editCustomerAddress
    email := orElse (trim form.editCustomerEmail) "N/A"
    category := form.editCustomerCategory
    notes := orElse (trim form.editCustomerNotes) ""
    lastModified := some now }

/-- The handler `handleEditCustomer`; `findIdx?` returning `none` is
`findIndex` returning `-1`. -/
def handleEditCustomer (s : AppState) (form : EditForm) (now : Nat) : AppState :=
  match s.customers.findIdx? (fun c => c.id == form.editCustomerId) with
  | none => s
  | some customerIndex =>
    let s1 := { s with
      customers := s.customers.modify (fun old => editedCustomer old form now) customerIndex }
    let s2 := saveDataToStorage s1
    showMessage s2 "Customer updated successfully!" .success

/-! ## Deleting a customer -/

/-- The function `deleteCustomer`: remember the record for the confirmation
dialog; an unknown id returns before anything is assigned. -/
def deleteCustomer (s : AppState) (customerId : String) : AppState :=
  match findById s.customers customerId with
  | none => s
  | some customer => { s with customerToDelete := some customer }

/-- The handler `handleConfirmDelete`; `eraseIdx` is `splice(customerIndex, 1)`. -/
def handleConfirmDelete (s : AppState) : AppState :=
  match s.customerToDelete with
  | none => s
  | some toDelete =>
    let s1 :=
      match s.customers.findIdx? (fun c => c.id == toDelete.id) with
      | some customerIndex =>
        let s2 := { s with customers := s.customers.eraseIdx customerIndex }
        let s3 := saveDataToStorage s2
        showMessage s3 "Customer deleted successfully!" .success
      | none => s
    { s1 with customerToDelete := none }

/-! ## Searching -/

/-- What a call of `searchCustomers` ends with: an error message, or the call
`displaySearchResults(results, searchType, searchValue)`. -/
inductive SearchOutcome where
  | error (message : String)
  | displayed (results : List Customer) (searchType searchValue : String)
  deriving DecidableEq, Repr

/-- The property access `customer[searchField]` for the two fields
`searchCustomers` uses. -/
def Customer.field (c : Customer) (searchField : String) : String :=
  if searchField = "name" then c.name else c.phone

/-- The function `searchCustomers`.  `toLowerCase` is the built-in
`String.prototype.toLowerCase`; `searchByName` and `searchByPhone` are the values
of the two search boxes. -/
def searchCustomers (toLowerCase : String → String) (customers : List Customer)
    (searchByName searchByPhone : String) (searchType : String) : SearchOutcome :=
  let searchValue := if searchType = "name" then trim searchByName else trim searchByPhone
  let searchField := if searchType = "name" then "name" else "phone"
  if searchValue = "" then
    .error ("Please enter a " ++ searchType ++ " to search.")
  else
    let searchResults := customers.filter (fun customer =>
      includes (toLowerCase (customer.field searchField)) (toLowerCase searchValue))
    .displayed searchResults searchType searchValue

/-! ## Product counters -/

/-- The handler `handleUpdateProducts`, from the four numbers obtained by
`parseInt(...) || 0` and `parseFloat(...) || 0`. -/
def handleUpdateProducts (s : AppState) (totalProducts productsSold : Int)
    (capitalAmount productPrice : Rat) : AppState :=
  if totalProducts < 0 ∨ productsSold < 0 ∨ capitalAmount < 0 ∨ productPrice < 0 then
    showMessage s "Please enter valid positive numbers." .error
  else if productsSold > totalProducts then
    showMessage s "Products sold cannot exceed total products." .error
  else
    let s1 := { s with
      products := { total := totalProducts, sold := productsSold,
                    price := productPrice, capital := capitalAmount } }
    let s2 := saveDataToStorage s1
    showMessage s2 "Products and capital updated successfully!" .success

/-- A run of `handleAddCustomer` calls, each with its form and its two clock
readings (`Date.now()` and `new Date()`). -/
def addAll (s : AppState) (steps : List (AddForm × Nat × Nat)) : AppState :=
  steps.foldl (fun acc st => handleAddCustomer acc st.1 st.2.1 st.2.2) s

/-- The input passes both checks of `handleAddCustomer`: the three required
fields are non-empty after trimming and no customer has the trimmed phone. -/
def addAccepts (customers : List Customer) (form : AddForm) : Prop :=
  trim form.customerName ≠ "" ∧ trim form.customerPhone ≠ "" ∧
  trim form.customerAddress ≠ "" ∧
  ∀ c ∈ customers, c.phone ≠ trim form.customerPhone

instance instDecidableAddAccepts (customers : List Customer) (form : AddForm) :
    Decidable (addAccepts customers form) := by
  unfold addAccepts
  infer_instance

/-! ## Worked example: the scenario of the specification -/

/-- The add form filled in with `{name: "Ann", phone: "555-1", address: "1 Rd"}`. -/
def annForm : AddForm where
  customerName := " Ann "
  customerPhone := "555-1"
  customerAddress := "1 Rd"
  customerEmail := ""
  customerCategory := "Regular"
  customerNotes := ""

/-- The state after Ann was added to an empty repository at clock reading `1000`. -/
def annState : AppState :=
  handleAddCustomer AppState.initial annForm 1000 1000

/-- A second add form, with a phone that differs from Ann's. -/
def bobForm : AddForm where
  customerName := "Bob"
  customerPhone := "555-2"
  customerAddress := "2 Rd"
  customerEmail := "bob@example.com"
  customerCategory := "VIP"
  customerNotes := " call first "

/-- The state after Ann and then Bob were added, at readings `1000` and `2000`. -/
def twoState : AppState :=
  handleAddCustomer annState bobForm 2000 2000

/-- An edit of Bob's record (id `2000`) that types Ann's phone into the form. -/
def bobEdit : EditForm where
  editCustomerId := "2000"
  editCustomerName := "Bob"
  editCustomerPhone := " 555-1"
  editCustomerAddress := "2 Rd"
  editCustomerEmail := ""
  editCustomerCategory := "VIP"
  editCustomerNotes := ""

/-- Lower-casing of the letters `A` to `Z` only; on strings without other cased
letters this is what `toLowerCase` computes. -/
def asciiLower (s : String) : String :=
  ⟨s.data.map Char.toLower⟩

/-- The sample product counters of `generateSampleData`. -/
def sampleProducts : Products where
  total := 100
  sold := 25
  price := 2999 / 100
  capital := 5000

/-! ## Numbers

A JavaScript number is recorded as the rational it denotes.  Every arithmetic
operation of the source is the exact operation followed by a rounding `rnd`:
`binary64` is the rounding of IEEE-754 double precision, the identity is exact
arithmetic.  A decimal literal such as `0.4` is `rnd (2 / 5)`. -/

/-- Round to the nearest integer, ties to the even one. -/
def roundHalfEven (q : Rat) : Int :=
  let f := q.floor
  let r := q - f
  if r < 1 / 2 then f else if 1 / 2 < r then f + 1 else if f % 2 = 0 then f else f + 1

/-- Two to an integer power. -/
def pow2 (e : Int) : Rat :=
  if 0 ≤ e then (2 ^ e.toNat : Nat) else 1 / (2 ^ (-e).toNat : Nat)

/-- With fuel `n`, the position of the highest set bit of `n` (0 for `n < 2`). -/
def bitLog : Nat → Nat → Nat
  | 0, _ => 0
  | fuel + 1, n => if n < 2 then 0 else bitLog fuel (n / 2) + 1

/-- The binary exponent of a non-zero rational: `2 ^ e ≤ |q| < 2 ^ (e + 1)`. -/
def binExp (q : Rat) : Int :=
  let e0 : Int := (bitLog q.num.natAbs q.num.natAbs : Int) - (bitLog q.den q.den : Int)
  if |q| < pow2 e0 then e0 - 1 else e0

/-- Rounding to the nearest IEEE-754 double (53 significant bits, ties to even,
gradual underflow); overflow to `Infinity` is not represented. -/
def binary64 (q : Rat) : Rat :=
  if q = 0 then 0 else
    let e := max (binExp q) (-1022)
    let ulp := pow2 (e - 52)
    roundHalfEven (q / ulp) * ulp

/-! ## Reports: figures derived from the product counters -/

/-- The four values `updateStatistics` of `main.js` puts on the dashboard,
before formatting. -/
structure Statistics where
  totalCustomers : Nat
  totalProductsSold : Int
  availableFunds : Rat
  totalCapital : Rat
  deriving DecidableEq, Repr

/-- The function `updateStatistics` (`main.js`). -/
def updateStatistics (rnd : Rat → Rat) (customers : List Customer) (products : Products) :
    Statistics where
  totalCustomers := customers.length
  totalProductsSold := products.sold
  availableFunds := rnd (products.sold * products.price)
  totalCapital := products.capital

/-- The values `updateFinancialReport` of `reports.js` computes, before
formatting. -/
structure FinancialReport where
  totalRevenue : Rat
  totalProfit : Rat
  roi : Rat
  deriving DecidableEq, Repr

/-- The function `updateFinancialReport` (`reports.js`). -/
def updateFinancialReport (rnd : Rat → Rat) (products : Products) : FinancialReport :=
  let totalRevenue := rnd (products.sold * products.price)
  let totalProfit := rnd (totalRevenue - products.capital)
  let roi := if products.capital > 0 then rnd (rnd (totalProfit / products.capital) * 100) else 0
  { totalRevenue := totalRevenue, totalProfit := totalProfit, roi := roi }

/-! ## Reports: growth rate -/

/-- The function `calculateGrowthRate` (`reports.js`) from the point where the
cutoff `oneMonthAgo` has been computed: `oneMonthAgo` is the instant of
`new Date(now.getFullYear(), now.getMonth() - 1, now.getDate())`. -/
def calculateGrowthRate (rnd : Rat → Rat) (customers : List Customer) (oneMonthAgo : Int) :
    Rat :=
  if customers.length < 2 then 0
  else
    let recentCustomers : Nat :=
      (customers.filter (fun customer => decide ((customer.dateAdded : Int) > oneMonthAgo))).length
    let previousCustomers : Nat := customers.length - recentCustomers
    if previousCustomers = 0 then (if recentCustomers > 0 then 100 else 0)
    else
      rnd (rnd (rnd ((recentCustomers : Rat) - (previousCustomers : Rat)) /
        (previousCustomers : Rat)) * 100)

/-- Number of customers added strictly after the cutoff (the recent group). -/
def recentCount (customers : List Customer) (cutoff : Int) : Nat :=
  customers.countP (fun c => decide ((c.dateAdded : Int) > cutoff))

/-- Number of customers added at or before the cutoff (the earlier group). -/
def previousCount (customers : List Customer) (cutoff : Int) : Nat :=
  customers.countP (fun c => decide ((c.dateAdded : Int) ≤ cutoff))

/-- The sample counters with the price as the double nearest to `29.99`. -/
def sampleProducts64 : Products :=
  { sampleProducts with price := binary64 (2999 / 100) }

/-! ## Objects used as dictionaries

A JavaScript object that the source fills key by key is a list of key/value
pairs in insertion order, with at most one pair per key.  (`Object.keys` lists
integer-like keys first; the order of the pairs plays no role below.) -/

/-- A dictionary object. -/
abbrev Dict (κ : Type) (α : Type) := List (κ × α)

/-- The read `d[k]`; `none` is `undefined`. -/
def dictGet {κ α : Type} [DecidableEq κ] : Dict κ α → κ → Option α
  | [], _ => none
  | (k', v) :: rest, k => if k' = k then some v else dictGet rest k

/-- The write `d[k] = v`: an existing key keeps its place, a new key goes last. -/
def dictSet {κ α : Type} [DecidableEq κ] : Dict κ α → κ → α → Dict κ α
  | [], k, v => [(k, v)]
  | (k', v') :: rest, k, v => if k' = k then (k', v) :: rest else (k', v') :: dictSet rest k v

/-- An update in place of the value stored under `k`, such as `d[k].count++`
or `d[k]++`. -/
def dictModify {κ α : Type} [DecidableEq κ] : Dict κ α → κ → (α → α) → Dict κ α
  | [], _, _ => []
  | (k', v) :: rest, k, f =>
    if k' = k then (k', f v) :: rest else (k', v) :: dictModify rest k f

/-! ## Reports: customers by category -/

/-- One entry of `categoryStats` in `updateCustomerPerformanceReport`. -/
structure CategoryStat where
  count : Nat
  revenue : Rat
  avgValue : Rat
  deriving DecidableEq, Repr

/-- The expression `customer.category || 'Regular'`; an absent `category` field
is the empty string. -/
def effectiveCategory (customer : Customer) : String :=
  orElse customer.category "Regular"

/-- The property names every object literal `{}` inherits from
`Object.prototype`; reading one of them from an object without an own property
of that name yields the inherited function (for `__proto__`, the prototype
object), which is truthy. -/
def objectPrototypeKeys : List String :=
  ["constructor", "hasOwnProperty", "isPrototypeOf", "propertyIsEnumerable",
    "toLocaleString", "toString", "valueOf", "__defineGetter__", "__defineSetter__",
    "__lookupGetter__", "__lookupSetter__", "__proto__"]

/-- The body of the first `forEach` of `updateCustomerPerformanceReport`.
`categoryStats` starts as `{}`: when `category` has no own entry but names an
inherited member, `!categoryStats[category]` is false, no entry is created, and
`categoryStats[category].count++` lands on the inherited member, which
`Object.keys` never lists. -/
def countCategory (categoryStats : Dict String CategoryStat) (customer : Customer) :
    Dict String CategoryStat :=
  let category := effectiveCategory customer
  match dictGet categoryStats category with
  | some _ => dictModify categoryStats category (fun st => { st with count := st.count + 1 })
  | none =>
    if category ∈ objectPrototypeKeys then categoryStats
    else
      let stats1 := dictSet categoryStats category { count := 0, revenue := 0, avgValue := 0 }
      dictModify stats1 category (fun st => { st with count := st.count + 1 })

/-- The function `updateCustomerPerformanceReport` (`reports.js`) up to the
point where the table rows are rendered: the final content of `categoryStats`.
The guard on the table element is a DOM matter and is taken as passed. -/
def updateCustomerPerformanceReport (rnd : Rat → Rat) (customers : List Customer)
    (products : Products) : Dict String CategoryStat :=
  let categoryStats := customers.foldl countCategory []
  let revenuePerCustomer := rnd (rnd (products.sold * products.price) / customers.length)
  categoryStats.map (fun entry =>
    (entry.1, { entry.2 with
      revenue := rnd (entry.2.count * revenuePerCustomer)
      avgValue := revenuePerCustomer }))

/-- A customer list with three categories, one of them left empty. -/
def mixedCustomers : List Customer :=
  [customerData annForm 1000 1000, customerData bobForm 2000 2000,
    { customerData annForm 3000 3000 with category := "" },
    { customerData bobForm 4000 4000 with category := "Corporate" }]

/-- A single customer whose category is the name of a member every object
inherits. -/
def inheritedNameCustomers : List Customer :=
  [{ customerData annForm 1000 1000 with category := "toString" }]

/-! ## Reports: monthly series -/

/-- What the label `toLocaleDateString('en-US', { month: 'short', year: '2-digit' })`
shows of a date, for instance `Mar 24`: the month (0 for January) and the last
two digits of the year. -/
structure MonthKey where
  month : Nat
  year2 : Nat
  deriving DecidableEq, Repr

/-- The label of a date given by its calendar year and month. -/
def monthKey (ym : Int × Nat) : MonthKey :=
  { month := ym.2, year2 := (ym.1 % 100).toNat }

/-- The calendar year and month of `new Date(year, monthIndex, 1)`: a month
index outside `0..11` carries into the year. -/
def normMonth (year : Int) (monthIndex : Int) : Int × Nat :=
  (year + monthIndex / 12, (monthIndex % 12).toNat)

/-- The function `calculateMonthlyGrowth` (`reports.js`).  `localYearMonth` is
the platform's calendar: the year and month (0..11), in the local time zone, of
an instant; `now` is the instant of `new Date()`. -/
def calculateMonthlyGrowth (localYearMonth : Nat → Int × Nat) (customers : List Customer)
    (now : Nat) : Dict MonthKey Nat :=
  let ym := localYearMonth now
  let monthlyData : Dict MonthKey Nat :=
    [5, 4, 3, 2, 1, 0].foldl
      (fun d (i : Nat) => dictSet d (monthKey (normMonth ym.1 ((ym.2 : Int) - i))) 0) []
  customers.foldl
    (fun d customer =>
      let key := monthKey (localYearMonth customer.dateAdded)
      match dictGet d key with
      | some _ => dictModify d key (fun n => n + 1)
      | none => d)
    monthlyData

/-- The figure `Math.max(0, baseSales * (1 + variation) * products.price)` that
`generateMonthlySalesData` stores for one month, from the value `r` of that
month's call of `Math.random()`. -/
def salesFigure (rnd : Rat → Rat) (products : Products) (r : Rat) : Rat :=
  let baseSales := rnd (products.sold / 6)
  let variation := rnd (rnd (r - rnd (1 / 2)) * rnd (2 / 5))
  max 0 (rnd (rnd (baseSales * rnd (1 + variation)) * products.price))

/-- The function `generateMonthlySalesData` (`reports.js`).  `ym` is the local
calendar year and month of `new Date()`, `random k` is the value of the `k`-th
call of `Math.random()`. -/
def generateMonthlySalesData (rnd : Rat → Rat) (products : Products) (ym : Int × Nat)
    (random : Nat → Rat) : Dict MonthKey Rat :=
  [5, 4, 3, 2, 1, 0].foldl
    (fun d (i : Nat) =>
      let key := monthKey (normMonth ym.1 ((ym.2 : Int) - i))
      dictSet d key (salesFigure rnd products (random (5 - i))))
    []

/-- Counters with one product sold at the price 2.5. -/
def oneSold : Products where
  total := 1
  sold := 1
  price := 5 / 2
  capital := 0

/-- The platform calendar when the local time zone is UTC: year and month
(0..11) of an instant given in milliseconds since the epoch. -/
def utcYearMonth (ms : Nat) : Int × Nat :=
  let z := ms / 86400000 + 719468
  let era := z / 146097
  let doe := z % 146097
  let yoe := (doe - doe / 1460 + doe / 36524 - doe / 146096) / 365
  let doy := doe - (365 * yoe + yoe / 4 - yoe / 100)
  let mp := (5 * doy + 2) / 153
  let m := if mp < 10 then mp + 3 else mp - 9
  let y := yoe + era * 400 + (if m ≤ 2 then 1 else 0)
  ((y : Int), m - 1)

/-- One customer added on 15 March 1971 (UTC). -/
def oldCustomers : List Customer :=
  [{ customerData annForm 1000 37843200000 with id := "1" }]

/-- Customers added on 30 September 2023, 1 October 2023, 31 January 2024,
29 February 2024 and 15 March 2024 (UTC). -/
def datedCustomers : List Customer :=
  [{ customerData annForm 1 1696032000000 with id := "1" },
    { customerData annForm 2 1696118400000 with id := "2" },
    { customerData annForm 3 1706659200000 with id := "3" },
    { customerData annForm 4 1709164800000 with id := "4" },
    { customerData annForm 5 1710460800000 with id := "5" }]

/-! ## Import and export

`importData` assigns to the globals whatever `JSON.parse` found under
`customers` and `products`, so on this path the globals and the two storage
keys hold arbitrary parsed values.  A serialised document is recorded as the
value it parses to. -/

/-- A value returned by `JSON.parse`.  `isoDate` is a string in the format of
`toISOString`, recorded as the instant it denotes. -/
inductive Json where
  | null
  | bool (b : Bool)
  | num (q : Rat)
  | str (s : String)
  | isoDate (instant : Nat)
  | arr (items : List Json)
  | obj (fields : List (String × Json))

/-- Truthiness of a parsed value. -/
def Json.truthy : Json → Bool
  | .null => false
  | .bool b => b
  | .num q => decide (q ≠ 0)
  | .str s => decide (s ≠ "")
  | .isoDate _ => true
  | .arr _ => true
  | .obj _ => true

/-- The read `v.k` of one of the property names used by `main.js` on a parsed
value other than `null`; `none` is `undefined`.  Only objects have such
properties. -/
def Json.prop (v : Json) (k : String) : Option Json :=
  match v with
  | .obj fields => dictGet fields k
  | _ => none

mutual
/-- Whether converting a parsed value to a string or a number (in a template
literal, in arithmetic, or when it is assigned to `textContent` or `value`)
throws a `TypeError`: an object with an own `toString` entry, which is never a
function, cannot be converted, and an array converts its items. -/
def convThrows : Json → Bool
  | .obj fields => fields.any (fun e => e.1 == "toString")
  | .arr items => convThrowsList items
  | _ => false
/-- Whether converting some item of an array throws. -/
def convThrowsList : List Json → Bool
  | [] => false
  | x :: xs => convThrows x || convThrowsList xs
end

/-- Whether converting the property `k` of `v` throws. -/
def propThrows (v : Json) (k : String) : Bool :=
  match v.prop k with
  | some x => convThrows x
  | none => false

/-- Whether the callback of `customers.forEach` in `renderCustomersTable` throws
on one item: reading a property of `null` does, and so does a field that cannot
be converted. -/
def rowThrows (customer : Json) : Bool :=
  match customer with
  | .null => true
  | c => ["name", "phone", "address", "email", "category", "id"].any (propThrows c)

/-- Whether `renderCustomersTable` throws for a given value of the global
`customers`.  An array is walked by `forEach`.  Any other value has no
`forEach`: the call throws unless `customers.length === 0` returned first. -/
def renderCustomersTableThrows (customers : Json) : Bool :=
  match customers with
  | .arr items => items.any rowThrows
  | .obj fields =>
    match dictGet fields "length" with
    | some (.num q) => decide (q ≠ 0)
    | _ => true
  | .str s => decide (s ≠ "")
  | _ => true

/-- Whether one of the four refresh calls of `importData` (`updateStatistics`,
`updateProductSummary`, `renderCustomersTable`, `populateProductFields`)
throws. -/
def refreshThrows (customers products : Json) : Bool :=
  ["sold", "price", "capital", "total"].any (propThrows products) ||
  propThrows customers "length" ||
  renderCustomersTableThrows customers

/-- The globals `customers` and `products` and the storage keys
`crm_customers` and `crm_products`, holding parsed values. -/
structure RawState where
  customers : Json
  products : Json
  crm_customers : Option Json
  crm_products : Option Json
  messages : List Message

/-- The function `saveDataToStorage` on parsed values. -/
def RawState.save (s : RawState) : RawState :=
  { s with crm_customers := some s.customers, crm_products := some s.products }

/-- The function `showMessage` on a `RawState`. -/
def RawState.showMessage (s : RawState) (text : String) (type : MessageType) : RawState :=
  { s with messages := s.messages ++ [{ text := text, type := type }] }

/-- The `onload` callback of `importData`; `parsed` is the result of
`JSON.parse(e.target.result)`, `none` when it throws.  Every exception inside
the `try` block ends in the same `catch`. -/
def importData (s : RawState) (parsed : Option Json) : RawState :=
  match parsed with
  | none => s.showMessage "Error reading file. Please ensure it's a valid JSON file." .error
  | some .null =>
    s.showMessage "Error reading file. Please ensure it's a valid JSON file." .error
  | some data =>
    match data.prop "customers", data.prop "products" with
    | some c, some p =>
      if c.truthy && p.truthy then
        let s1 := { s with customers := c, products := p }
        let s2 := s1.save
        if refreshThrows s2.customers s2.products then
          s2.showMessage "Error reading file. Please ensure it's a valid JSON file." .error
        else
          s2.showMessage "Data imported successfully!" .success
      else
        s.showMessage "Invalid data format. Please select a valid CRM export file." .error
    | _, _ =>
      s.showMessage "Invalid data format. Please select a valid CRM export file." .error

/-- A customer record as a parsed value: the keys in the order in which
`handleAddCustomer` and `handleEditCustomer` create them. -/
def Customer.toJson (c : Customer) : Json :=
  .obj ([("id", .str c.id), ("name", .str c.name), ("phone", .str c.phone),
    ("address", .str c.address), ("email", .str c.email), ("category", .str c.category),
    ("notes", .str c.notes), ("dateAdded", .isoDate c.dateAdded)] ++
    match c.lastModified with
    | none => []
    | some t => [("lastModified", .isoDate t)])

/-- The product counters as a parsed value. -/
def Products.toJson (p : Products) : Json :=
  .obj [("total", .num p.total), ("sold", .num p.sold), ("price", .num p.price),
    ("capital", .num p.capital)]

/-! ### Counters as doubles

`parseFloat(...) || 0` returns a finite number or an infinity (`NaN` is falsy
and becomes 0), and `handleUpdateProducts` only tests the sign, so the global
`products` can hold `Infinity` as price or capital.  `JSON.stringify` writes
such a number as `null`. -/

/-- A result of `parseFloat(...) || 0`: a finite number or an infinity. -/
inductive JsNumber where
  | finite (q : Rat)
  | posInfinity
  | negInfinity
  deriving DecidableEq, Repr

/-- The test `x < 0`. -/
def JsNumber.isNegative : JsNumber → Bool
  | .finite q => decide (q < 0)
  | .posInfinity => false
  | .negInfinity => true

/-- The function `Number.isFinite`. -/
def JsNumber.isFinite : JsNumber → Bool
  | .finite _ => true
  | _ => false

/-- What `JSON.stringify` writes for a number, as the value it parses to: a
number that is not finite is written `null`. -/
def JsNumber.toJson : JsNumber → Json
  | .finite q => .num q
  | _ => .null

/-- The global `products`, its price and capital any result of
`parseFloat(...) || 0`. -/
structure JsProducts where
  total : Int
  sold : Int
  price : JsNumber
  capital : JsNumber
  deriving DecidableEq, Repr

/-- The mutable state of `main.js` with such counters; the two blobs hold the
values they parse to. -/
structure JsState where
  customers : List Customer
  products : JsProducts
  crm_customers : Option Json
  crm_products : Option Json
  customerToDelete : Option Customer
  messages : List Message

/-- What `JSON.stringify` writes for the counters, as the value it parses to. -/
def JsProducts.toJson (p : JsProducts) : Json :=
  .obj [("total", .num p.total), ("sold", .num p.sold), ("price", p.price.toJson),
    ("capital", p.capital.toJson)]

/-- Finite counters among all counters. -/
def Products.toJs (p : Products) : JsProducts where
  total := p.total
  sold := p.sold
  price := .finite p.price
  capital := .finite p.capital

/-- A state with finite counters among all states. -/
def AppState.toJs (s : AppState) : JsState where
  customers := s.customers
  products := s.products.toJs
  crm_customers := s.storage.crm_customers.map (fun cs => .arr (cs.map Customer.toJson))
  crm_products := s.storage.crm_products.map Products.toJson
  customerToDelete := s.customerToDelete
  messages := s.messages

/-- The function `saveDataToStorage` on a `JsState`. -/
def JsState.saveDataToStorage (s : JsState) : JsState :=
  { s with crm_customers := some (.arr (s.customers.map Customer.toJson)),
           crm_products := some s.products.toJson }

/-- The function `showMessage` on a `JsState`. -/
def JsState.showMessage (s : JsState) (text : String) (type : MessageType) : JsState :=
  { s with messages := s.messages ++ [{ text := text, type := type }] }

/-- The handler `handleUpdateProducts` on a `JsState`, from the two integers
obtained by `parseInt(...) || 0` and the two numbers obtained by
`parseFloat(...) || 0`. -/
def handleUpdateProductsJs (s : JsState) (totalProducts productsSold : Int)
    (capitalAmount productPrice : JsNumber) : JsState :=
  if totalProducts < 0 ∨ productsSold < 0 ∨ capitalAmount.isNegative = true ∨
      productPrice.isNegative = true then
    s.showMessage "Please enter valid positive numbers." .error
  else if productsSold > totalProducts then
    s.showMessage "Products sold cannot exceed total products." .error
  else
    let s1 := { s with
      products := { total := totalProducts, sold := productsSold,
                    price := productPrice, capital := capitalAmount } }
    let s2 := s1.saveDataToStorage
    s2.showMessage "Products and capital updated successfully!" .success

/-- The document `exportData` serialises, as the value it parses to; `now` is
the instant of `new Date()`. -/
def exportData (s : JsState) (now : Nat) : Json :=
  .obj [("customers", .arr (s.customers.map Customer.toJson)),
    ("products", s.products.toJson), ("exportDate", .isoDate now)]

/-- The state of `main.js` seen as parsed values. -/
def AppState.toRaw (s : AppState) : RawState where
  customers := .arr (s.customers.map Customer.toJson)
  products := s.products.toJson
  crm_customers := s.storage.crm_customers.map (fun cs => .arr (cs.map Customer.toJson))
  crm_products := s.storage.crm_products.map Products.toJson
  messages := s.messages

/-- Reading a customer record back from a parsed value. -/
def Customer.ofJson : Json → Option Customer
  | .obj [("id", .str id), ("name", .str name), ("phone", .str phone),
      ("address", .str address), ("email", .str email), ("category", .str category),
      ("notes", .str notes), ("dateAdded", .isoDate dateAdded)] =>
    some { id := id, name := name, phone := phone, address := address, email := email,
           category := category, notes := notes, dateAdded := dateAdded, lastModified := none }
  | .obj [("id", .str id), ("name", .str name), ("phone", .str phone),
      ("address", .str address), ("email", .str email), ("category", .str category),
      ("notes", .str notes), ("dateAdded", .isoDate dateAdded),
      ("lastModified", .isoDate t)] =>
    some { id := id, name := name, phone := phone, address := address, email := email,
           category := category, notes := notes, dateAdded := dateAdded,
           lastModified := some t }
  | _ => none

/-- Reading a list of customer records back, item by item. -/
def customersOfItems : List Json → Option (List Customer)
  | [] => some []
  | x :: xs =>
    match Customer.ofJson x, customersOfItems xs with
    | some c, some cs => some (c :: cs)
    | _, _ => none

/-- Reading a customer collection back from a parsed value. -/
def customersOfJson : Json → Option (List Customer)
  | .arr items => customersOfItems items
  | _ => none

/-- Reading product counters back from a parsed value. -/
def Products.ofJson : Json → Option Products
  | .obj [("total", .num total), ("sold", .num sold), ("price", .num price),
      ("capital", .num capital)] =>
    if total.den = 1 ∧ sold.den = 1 then
      some { total := total.num, sold := sold.num, price := price, capital := capital }
    else none
  | _ => none

/-- Reading product counters back from a value held in memory after
`JSON.parse`: the four fields are numbers, `total` and `sold` integers. -/
def JsProducts.ofJson : Json → Option JsProducts
  | .obj [("total", .num total), ("sold", .num sold), ("price", .num price),
      ("capital", .num capital)] =>
    if total.den = 1 ∧ sold.den = 1 then
      some { total := total.num, sold := sold.num, price := .finite price,
             capital := .finite capital }
    else none
  | _ => none

/-- The state of a freshly loaded page with an empty `localStorage`. -/
def JsState.initial : JsState := AppState.initial.toJs

/-- The state after the product form is submitted on a fresh page with total
`1`, sold `0`, capital `0` and price `1e999`, which `parseFloat` reads as
`Infinity`. -/
def infinitePrice : JsState :=
  handleUpdateProductsJs JsState.initial 1 0 (.finite 0) .posInfinity

/-- Ann and Bob with 100 products, 25 sold, at 29.99, and a capital of 5000. -/
def stockedState : JsState :=
  { twoState.toJs with
    products := { total := 100, sold := 25, price := .finite (2999 / 100),
                  capital := .finite 5000 } }

/-- An import file whose `customers` array holds `null`. -/
def nullCustomerDoc : Json :=
  .obj [("customers", .arr [.null]),
    ("products", .obj [("total", .num 1), ("sold", .num 0), ("price", .num 1),
      ("capital", .num 0)])]

/-- An empty store: no customers, zero counters, nothing persisted. -/
def RawState.empty : RawState where
  customers := .arr []
  products := AppState.initial.products.toJson
  crm_customers := none
  crm_products := none
  messages := []

/-- An import file without a `products` field. -/
def customersOnlyDoc : Json :=
  .obj [("customers", .arr [(customerData annForm 1000 1000).toJson])]

/-- Three customers in three different categories. -/
def threeCustomers : List Customer :=
  [customerData annForm 1000 1000, customerData bobForm 2000 2000,
    { customerData bobForm 4000 4000 with category := "Corporate" }]

/-- Counters with nine products sold at the double nearest to 0.1. -/
def nineSold : Products where
  total := 9
  sold := 9
  price := binary64 (1 / 10)
  capital := 0

/-! ## Sequences of repository operations -/

/-- One operation of the customer repository: an add, an edit, or a delete
(`deleteCustomer` followed by `handleConfirmDelete`), with the values it reads. -/
inductive RepoOp where
  | add (form : AddForm) (idNow dateNow : Nat)
  | edit (form : EditForm) (now : Nat)
  | delete (customerId : String)

/-- The effect of one repository operation. -/
def applyOp (s : AppState) : RepoOp → AppState
  | .add form idNow dateNow => handleAddCustomer s form idNow dateNow
  | .edit form now => handleEditCustomer s form now
  | .delete customerId => handleConfirmDelete (deleteCustomer s customerId)

/-- The state reached from the empty repository by a sequence of operations. -/
def runOps (ops : List RepoOp) : AppState :=
  ops.foldl applyOp AppState.initial

/-- The required fields of a record are non-empty after trimming. -/
def requiredFieldsPresent (c : Customer) : Prop :=
  trim c.name ≠ "" ∧ trim c.phone ≠ "" ∧ trim c.address ≠ ""

instance instDecidableRequiredFieldsPresent (c : Customer) :
    Decidable (requiredFieldsPresent c) := by
  unfold requiredFieldsPresent
  infer_instance

/-- An edit of Ann's record (id `1000`) that leaves only blanks in the name. -/
def blankNameEdit : EditForm where
  editCustomerId := "1000"
  editCustomerName := "   "
  editCustomerPhone := "555-1"
  editCustomerAddress := "1 Rd"
  editCustomerEmail := ""
  editCustomerCategory := "Regular"
  editCustomerNotes := ""

/-! ## Remaining stock -/

/-- The three values `updateProductSummary` of `main.js` shows, before they are
converted to text. -/
structure ProductSummary where
  availableProducts : Int
  displayProductsSold : Int
  remainingProducts : Rat
  deriving DecidableEq, Repr

/-- The function `updateProductSummary` (`main.js`). -/
def updateProductSummary (rnd : Rat → Rat) (products : Products) : ProductSummary where
  availableProducts := products.total
  displayProductsSold := products.sold
  remainingProducts := max 0 (rnd ((products.total : Rat) - (products.sold : Rat)))

/-- The values `generateProductChart` of `reports.js` computes, before
`toFixed(1)`; a percentage is `none` when `total` is 0 and the quotient is not
a finite number. -/
structure ProductChart where
  remaining : Rat
  soldPercentage : Option Rat
  remainingPercentage : Option Rat
  deriving DecidableEq, Repr

/-- The function `generateProductChart` (`reports.js`), with the chart element
present. -/
def generateProductChart (rnd : Rat → Rat) (products : Products) : ProductChart :=
  let remaining := rnd ((products.total : Rat) - (products.sold : Rat))
  { remaining := remaining
    soldPercentage :=
      if products.total = 0 then none
      else some (rnd (rnd ((products.sold : Rat) / (products.total : Rat)) * 100))
    remainingPercentage :=
      if products.total = 0 then none
      else some (rnd (rnd (remaining / (products.total : Rat)) * 100)) }

/-- Counters with more products sold than in stock, as an import can leave
them. -/
def oversold : Products where
  total := 10
  sold := 15
  price := 1
  capital := 0

/-! ## Sample data -/

/-- The function `generateSampleData` (`main.js`).  `confirmed` is the answer to
the `confirm` dialog; `t0`, `t1`, `t2` are the three readings of `Date.now()` and
`d0`, `d1`, `d2` the instants of the three `new Date()`, in the order in which
the array literal evaluates them. -/
def generateSampleData (rnd : Rat → Rat) (s : AppState) (confirmed : Bool)
    (t0 t1 t2 d0 d1 d2 : Nat) : AppState :=
  if confirmed then
    let sampleCustomers : List Customer :=
      [{ id := Nat.repr t0, name := "John Smith", phone := "+1-555-0101",
         address := "123 Main St, New York, NY 10001", email := "john.smith@email.com",
         category := "VIP", notes := "Premium customer, prefers phone contact",
         dateAdded := d0, lastModified := none },
       { id := Nat.repr (t1 + 1), name := "Sarah Johnson", phone := "+1-555-0102",
         address := "456 Oak Ave, Los Angeles, CA 90210", email := "sarah.j@email.com",
         category := "Regular", notes := "Interested in new products",
         dateAdded := d1, lastModified := none },
       { id := Nat.repr (t2 + 2), name := "Mike Wilson", phone := "+1-555-0103",
         address := "789 Pine Rd, Chicago, IL 60601", email := "mike.wilson@email.com",
         category := "Corporate", notes := "Bulk orders, corporate account",
         dateAdded := d2, lastModified := none }]
    let s1 := { s with
      customers := sampleCustomers
      products := { total := 100, sold := 25, price := rnd (2999 / 100), capital := 5000 } }
    let s2 := saveDataToStorage s1
    showMessage s2 "Sample data generated successfully!" .success
  else s

/-! ## The growth cutoff -/

/-- Days between 1 January 1970 and the civil date `y`-`m`-`d` (`m` from 1 to
12) of the Gregorian calendar. -/
def daysFromCivil (y m d : Int) : Int :=
  let y1 := if m ≤ 2 then y - 1 else y
  let era := y1 / 400
  let yoe := y1 - era * 400
  let mp := if m > 2 then m - 3 else m + 9
  let doy := (153 * mp + 2) / 5 + d - 1
  let doe := yoe * 365 + yoe / 4 - yoe / 100 + doy
  era * 146097 + doe - 719468

/-- The platform calendar when the local time zone is UTC: year, month (0..11)
and day of the month of an instant. -/
def utcDate (ms : Nat) : Int × Nat × Nat :=
  let z := ms / 86400000 + 719468
  let era := z / 146097
  let doe := z % 146097
  let yoe := (doe - doe / 1460 + doe / 36524 - doe / 146096) / 365
  let doy := doe - (365 * yoe + yoe / 4 - yoe / 100)
  let mp := (5 * doy + 2) / 153
  let d := doy - (153 * mp + 2) / 5 + 1
  let m := if mp < 10 then mp + 3 else mp - 9
  let y := yoe + era * 400 + (if m ≤ 2 then 1 else 0)
  ((y : Int), m - 1, d)

/-- The instant of `new Date(year, monthIndex, day)` when the local time zone
is UTC: midnight of that day, a month index outside `0..11` carrying into the
year and a day outside the month carrying into the neighbouring months. -/
def utcDateOf (year monthIndex day : Int) : Int :=
  let ym := normMonth year monthIndex
  (daysFromCivil ym.1 ((ym.2 : Int) + 1) 1 + (day - 1)) * 86400000

/-- The cutoff `oneMonthAgo` of `calculateGrowthRate`:
`new Date(now.getFullYear(), now.getMonth() - 1, now.getDate())`.  `localDate`
gives year, month and day of an instant in the local time zone and `dateOf` is
the `Date` constructor. -/
def oneMonthAgo (localDate : Nat → Int × Nat × Nat) (dateOf : Int → Int → Int → Int)
    (now : Nat) : Int :=
  let ymd := localDate now
  dateOf ymd.1 ((ymd.2.1 : Int) - 1) (ymd.2.2 : Int)

/-- The function `calculateGrowthRate` (`reports.js`) from its start, `now`
being the instant of `new Date()`. -/
def calculateGrowthRateNow (rnd : Rat → Rat) (localDate : Nat → Int × Nat × Nat)
    (dateOf : Int → Int → Int → Int) (customers : List Customer) (now : Nat) : Rat :=
  calculateGrowthRate rnd customers (oneMonthAgo localDate dateOf now)

/-- A customer with a given instant of `dateAdded`. -/
def customerAddedAt (t : Nat) : Customer :=
  { customerData annForm 1 t with id := "1" }

/-! ## Settings page

`settings.js` keeps no state of its own: every function parses the
`crm_settings` blob, changes the parsed object and serialises it again. -/

/-- The parsed `crm_settings` blob, a JSON object: the key `categories`, absent
or an array of strings, and the other top-level keys with their values. -/
structure Settings where
  categories : Option (List String)
  sections : Dict String Json

/-- The keys of `localStorage` that `settings.js` reads and writes, and the log
of `showSettingsMessage`; `none` is an absent key. -/
structure SettingsStore where
  crm_settings : Option Settings
  crm_customers : Option (List Customer)
  messages : List Message

/-- The expression `JSON.parse(localStorage.getItem('crm_settings') || '{}')`. -/
def SettingsStore.settings (st : SettingsStore) : Settings :=
  st.crm_settings.getD { categories := none, sections := [] }

/-- The function `showSettingsMessage`. -/
def showSettingsMessage (st : SettingsStore) (text : String) (type : MessageType) :
    SettingsStore :=
  { st with messages := st.messages ++ [{ text := text, type := type }] }

/-- The object `defaultSettings` of `loadDefaultSettings`. -/
def defaultSettings : Settings where
  categories := some ["Regular", "VIP", "Premium", "Wholesale", "Corporate"]
  sections :=
    [("company", .obj [("name", .str ""), ("address", .str ""), ("phone", .str ""),
        ("email", .str "")]),
      ("localization", .obj [("language", .str "en"), ("currency", .str "USD"),
        ("timezone", .str "UTC")]),
      ("fields", .obj [("notes", .bool true), ("tags", .bool true), ("birthday", .bool false),
        ("socialMedia", .bool false)]),
      ("notifications", .obj [("email", .bool true), ("browser", .bool true),
        ("lowStock", .bool false), ("birthday", .bool false)]),
      ("security", .obj [("sessionTimeout", .num 30), ("maxLoginAttempts", .num 5),
        ("dataEncryption", .bool true), ("auditLog", .bool true)]),
      ("backup", .obj [("autoBackup", .str "weekly"), ("retention", .num 30)]),
      ("performance", .obj [("cacheSize", .num 100), ("maxSearchResults", .num 100),
        ("lazyLoading", .bool true), ("compression", .bool true)]),
      ("developer", .obj [("debugMode", .bool false), ("consoleLogs", .bool false),
        ("performanceMonitoring", .bool false)]),
      ("export", .obj [("format", .str "json"), ("encoding", .str "utf8")]),
      ("import", .obj [("validation", .str "moderate"), ("duplicateHandling", .str "skip")])]

/-- The function `loadDefaultSettings`: the defaults are stored when the key is
absent. -/
def loadDefaultSettings (st : SettingsStore) : SettingsStore :=
  match st.crm_settings with
  | none => { st with crm_settings := some defaultSettings }
  | some _ => st

/-- The three statements shared by the eight section savers: parse the blob,
assign `settings[key] = value`, serialise it, and show `message`. -/
def saveSection (st : SettingsStore) (key : String) (value : Json) (message : String) :
    SettingsStore :=
  let settings := st.settings
  let settings1 := { settings with sections := dictSet settings.sections key value }
  showSettingsMessage { st with crm_settings := some settings1 } message .success

/-- How a result of `parseInt` is serialised; `none` is `NaN`, which
`JSON.stringify` writes as `null`. -/
def jsonOfParseInt : Option Int → Json
  | some n => .num n
  | none => .null

/-- The fields read by `saveCompanyInfo`. -/
structure CompanyForm where
  companyName : String
  companyAddress : String
  companyPhone : String
  companyEmail : String

/-- The object `companyInfo`. -/
def CompanyForm.value (f : CompanyForm) : Json :=
  .obj [("name", .str f.companyName), ("address", .str f.companyAddress),
    ("phone", .str f.companyPhone), ("email", .str f.companyEmail)]

/-- The function `saveCompanyInfo`. -/
def saveCompanyInfo (st : SettingsStore) (f : CompanyForm) : SettingsStore :=
  saveSection st "company" f.value "Company information saved successfully!"

/-- The fields read by `saveLocalization`. -/
structure LocalizationForm where
  language : String
  currency : String
  timezone : String

/-- The object `localization`. -/
def LocalizationForm.value (f : LocalizationForm) : Json :=
  .obj [("language", .str f.language), ("currency", .str f.currency),
    ("timezone", .str f.timezone)]

/-- The function `saveLocalization`. -/
def saveLocalization (st : SettingsStore) (f : LocalizationForm) : SettingsStore :=
  saveSection st "localization" f.value "Localization settings saved successfully!"

/-- The check boxes read by `saveFieldSettings`. -/
structure FieldForm where
  enableNotes : Bool
  enableTags : Bool
  enableBirthday : Bool
  enableSocialMedia : Bool

/-- The object `fields`. -/
def FieldForm.value (f : FieldForm) : Json :=
  .obj [("notes", .bool f.enableNotes), ("tags", .bool f.enableTags),
    ("birthday", .bool f.enableBirthday), ("socialMedia", .bool f.enableSocialMedia)]

/-- The function `saveFieldSettings`. -/
def saveFieldSettings (st : SettingsStore) (f : FieldForm) : SettingsStore :=
  saveSection st "fields" f.value "Field settings saved successfully!"

/-- The check boxes read by `saveNotificationSettings`. -/
structure NotificationForm where
  emailNotifications : Bool
  browserNotifications : Bool
  lowStockAlerts : Bool
  customerBirthdayReminders : Bool

/-- The object `notifications`. -/
def NotificationForm.value (f : NotificationForm) : Json :=
  .obj [("email", .bool f.emailNotifications), ("browser", .bool f.browserNotifications),
    ("lowStock", .bool f.lowStockAlerts), ("birthday", .bool f.customerBirthdayReminders)]

/-- The function `saveNotificationSettings`. -/
def saveNotificationSettings (st : SettingsStore) (f : NotificationForm) : SettingsStore :=
  saveSection st "notifications" f.value "Notification settings saved successfully!"

/-- The fields read by `saveSecuritySettings`, the two numbers after
`parseInt`. -/
structure SecurityForm where
  sessionTimeout : Option Int
  maxLoginAttempts : Option Int
  enableDataEncryption : Bool
  enableAuditLog : Bool

/-- The object `security`, as serialised. -/
def SecurityForm.value (f : SecurityForm) : Json :=
  .obj [("sessionTimeout", jsonOfParseInt f.sessionTimeout),
    ("maxLoginAttempts", jsonOfParseInt f.maxLoginAttempts),
    ("dataEncryption", .bool f.enableDataEncryption), ("auditLog", .bool f.enableAuditLog)]

/-- The function `saveSecuritySettings`. -/
def saveSecuritySettings (st : SettingsStore) (f : SecurityForm) : SettingsStore :=
  saveSection st "security" f.value "Security settings saved successfully!"

/-- The fields read by `savePerformanceSettings`, the two numbers after
`parseInt`. -/
structure PerformanceForm where
  cacheSize : Option Int
  maxSearchResults : Option Int
  enableLazyLoading : Bool
  enableCompression : Bool

/-- The object `performance`, as serialised. -/
def PerformanceForm.value (f : PerformanceForm) : Json :=
  .obj [("cacheSize", jsonOfParseInt f.cacheSize),
    ("maxSearchResults", jsonOfParseInt f.maxSearchResults),
    ("lazyLoading", .bool f.enableLazyLoading), ("compression", .bool f.enableCompression)]

/-- The function `savePerformanceSettings`. -/
def savePerformanceSettings (st : SettingsStore) (f : PerformanceForm) : SettingsStore :=
  saveSection st "performance" f.value "Performance settings saved successfully!"

/-- The fields read by `saveExportSettings`. -/
structure ExportForm where
  exportFormat : String
  exportEncoding : String

/-- The object `exportSettings`. -/
def ExportForm.value (f : ExportForm) : Json :=
  .obj [("format", .str f.exportFormat), ("encoding", .str f.exportEncoding)]

/-- The function `saveExportSettings`. -/
def saveExportSettings (st : SettingsStore) (f : ExportForm) : SettingsStore :=
  saveSection st "export" f.value "Export settings saved successfully!"

/-- The fields read by `saveImportSettings`. -/
structure ImportForm where
  importValidation : String
  duplicateHandling : String

/-- The object `importSettings`. -/
def ImportForm.value (f : ImportForm) : Json :=
  .obj [("validation", .str f.importValidation),
    ("duplicateHandling", .str f.duplicateHandling)]

/-- The function `saveImportSettings`. -/
def saveImportSettings (st : SettingsStore) (f : ImportForm) : SettingsStore :=
  saveSection st "import" f.value "Import settings saved successfully!"

/-- The function `addCategory`; `newCategory` is the value of the input
field. -/
def addCategory (st : SettingsStore) (newCategory : String) : SettingsStore :=
  let categoryName := trim newCategory
  if categoryName = "" then
    showSettingsMessage st "Please enter a category name." .error
  else
    let settings := st.settings
    let categories := settings.categories.getD []
    if categories.contains categoryName then
      showSettingsMessage st "Category already exists." .error
    else
      let settings1 := { settings with categories := some (categories ++ [categoryName]) }
      showSettingsMessage { st with crm_settings := some settings1 }
        "Category added successfully!" .success

/-- The function `editCategory`; `answer` is what `prompt` returns, `none` when
the dialog is cancelled. -/
def editCategory (st : SettingsStore) (oldName : String) (answer : Option String) :
    SettingsStore :=
  match answer with
  | none => st
  | some newName =>
    if newName ≠ "" ∧ trim newName ≠ "" ∧ newName ≠ oldName then
      let settings := st.settings
      match settings.categories with
      | none => st
      | some categories =>
        match categories.findIdx? (fun c => c == oldName) with
        | none => st
        | some index =>
          let settings1 := { settings with categories := some (categories.set index (trim newName)) }
          showSettingsMessage { st with crm_settings := some settings1 }
            "Category updated successfully!" .success
    else st

/-- The function `deleteCategory`; `confirmed` is the answer to `confirm`. -/
def deleteCategory (st : SettingsStore) (categoryName : String) (confirmed : Bool) :
    SettingsStore :=
  if confirmed then
    let settings := st.settings
    match settings.categories with
    | none => st
    | some categories =>
      match categories.findIdx? (fun c => c == categoryName) with
      | none => st
      | some index =>
        let settings1 := { settings with categories := some (categories.eraseIdx index) }
        showSettingsMessage { st with crm_settings := some settings1 }
          "Category deleted successfully!" .success
  else st

/-- The function `cleanupOldData`.  `confirmed` is the answer to `confirm`;
`cutoffDate` is the instant of `cutoffDate` after
`setDate(getDate() - days)`, `none` when `days` is not a number and the date is
invalid, in which case every comparison with it is false. -/
def cleanupOldData (st : SettingsStore) (confirmed : Bool) (cutoffDate : Option Int) :
    SettingsStore :=
  if confirmed then
    let customers := st.crm_customers.getD []
    let filteredCustomers := customers.filter (fun customer =>
      match cutoffDate with
      | some t => decide ((customer.dateAdded : Int) > t)
      | none => false)
    showSettingsMessage { st with crm_customers := some filteredCustomers }
      ("Cleanup completed. Removed " ++
        Nat.repr (customers.length - filteredCustomers.length) ++ " old records.") .success
  else st

/-- That `after` differs from `before` in the settings only by the section
`key`, which now holds `value`: the category list, every other top-level
section and the stored customers are as before. -/
def SectionReplaced (before after : SettingsStore) (key : String) (value : Json) : Prop :=
  dictGet after.settings.sections key = some value ∧
  (∀ k, k ≠ key → dictGet after.settings.sections k = dictGet before.settings.sections k) ∧
  after.settings.categories = before.settings.categories ∧
  after.crm_customers = before.crm_customers

/-- A settings store after the first visit of the settings page. -/
def freshStore : SettingsStore :=
  loadDefaultSettings { crm_settings := none, crm_customers := none, messages := [] }

/-- A settings store holding the customers Ann and Bob. -/
def twoCustomerStore : SettingsStore :=
  { crm_settings := none, crm_customers := some twoState.customers, messages := [] }

/-! ## Decimal rendering is injective

`digitValue` and `ofDigitChars` read a decimal string back; they are a left
inverse of `Nat.repr`, which makes the rendering of ids injective. -/

/-- Value of a decimal digit character. -/
def digitValue (c : Char) : Nat := c.toNat - 48

/-- Read a list of decimal digit characters, most significant first. -/
def ofDigitChars (l : List Char) : Nat :=
  l.foldl (fun a c => a * 10 + digitValue c) 0

theorem digitValue_digitChar (m : Nat) (h : m < 10) : digitValue (Nat.digitChar m) = m := by
  interval_cases m <;> rfl

theorem toDigitsCore_eq_append (fuel n : Nat) (ds : List Char) :
    Nat.toDigitsCore 10 fuel n ds = Nat.toDigitsCore 10 fuel n [] ++ ds := by
  induction fuel generalizing n ds with
  | zero => simp [Nat.toDigitsCore]
  | succ fuel ih =>
    simp only [Nat.toDigitsCore]
    split_ifs with h
    · simp
    · rw [ih (n / 10) (Nat.digitChar (n % 10) :: ds), ih (n / 10) [Nat.digitChar (n % 10)]]
      simp

theorem ofDigitChars_append_singleton (l : List Char) (c : Char) :
    ofDigitChars (l ++ [c]) = ofDigitChars l * 10 + digitValue c := by
  simp [ofDigitChars, List.foldl_append]

theorem ofDigitChars_toDigitsCore (fuel n : Nat) (h : n < fuel) :
    ofDigitChars (Nat.toDigitsCore 10 fuel n []) = n := by
  induction fuel generalizing n with
  | zero => omega
  | succ fuel ih =>
    simp only [Nat.toDigitsCore]
    split_ifs with h0
    · have hn : n < 10 := by omega
      simp [ofDigitChars, Nat.mod_eq_of_lt hn, digitValue_digitChar n hn]
    · rw [toDigitsCore_eq_append, ofDigitChars_append_singleton, ih (n / 10) (by omega),
        digitValue_digitChar (n % 10) (Nat.mod_lt _ (by decide))]
      omega

theorem ofDigitChars_repr (n : Nat) : ofDigitChars (Nat.repr n).data = n := by
  simp only [Nat.repr, Nat.toDigits, List.asString]
  exact ofDigitChars_toDigitsCore (n + 1) n (Nat.lt_succ_self n)

theorem repr_injective : Function.Injective Nat.repr := by
  intro a b h
  have := congrArg (fun s => ofDigitChars s.data) h
  simpa [ofDigitChars_repr] using this

/-! ## Basic facts about the helpers -/

example : trim "  Ann \t" = "Ann" := by decide
example : trim " \n " = "" := by decide
example : includes "hello" "ell" = true := by decide
example : includes "hello" "elo" = false := by decide
example : Nat.repr 1700000000000 = "1700000000000" := by decide
example : annState.customers.length = 1 := by decide
example : (handleAddCustomer annState annForm 2000 2000).customers.length = 1 := by decide

theorem orElse_empty (a : String) : orElse a "" = a := by
  unfold orElse
  split_ifs with h
  · exact h.symm
  · rfl

theorem showMessage_customers (s : AppState) (t : String) (k : MessageType) :
    (showMessage s t k).customers = s.customers := rfl

theorem showMessage_storage (s : AppState) (t : String) (k : MessageType) :
    (showMessage s t k).storage = s.storage := rfl

theorem showMessage_products (s : AppState) (t : String) (k : MessageType) :
    (showMessage s t k).products = s.products := rfl

theorem any_phone_iff (cs : List Customer) (p : String) :
    cs.any (fun customer => customer.phone == p) = true ↔ ∃ c ∈ cs, c.phone = p := by
  simp [List.any_eq_true]

theorem handleAddCustomer_customers_of_accepts (s : AppState) (form : AddForm)
    (idNow dateNow : Nat) (h : addAccepts s.customers form) :
    (handleAddCustomer s form idNow dateNow).customers =
      s.customers ++ [customerData form idNow dateNow] := by
  obtain ⟨hname, hphone, haddr, hfresh⟩ := h
  unfold handleAddCustomer
  simp only [customerData]
  split_ifs with h1 h2
  · rcases h1 with h | h | h
    · exact absurd h hname
    · exact absurd h hphone
    · exact absurd h haddr
  · obtain ⟨c, hc, hp⟩ := (any_phone_iff _ _).mp h2
    exact absurd hp (hfresh c hc)
  · rfl

theorem handleAddCustomer_customers_of_not_accepts (s : AppState) (form : AddForm)
    (idNow dateNow : Nat) (h : ¬ addAccepts s.customers form) :
    (handleAddCustomer s form idNow dateNow).customers = s.customers := by
  unfold handleAddCustomer
  simp only [customerData]
  split_ifs with h1 h2
  · rfl
  · rfl
  · exfalso
    apply h
    refine ⟨fun e => h1 (Or.inl e), fun e => h1 (Or.inr (Or.inl e)),
      fun e => h1 (Or.inr (Or.inr e)), fun c hc e => h2 ((any_phone_iff _ _).mpr ⟨c, hc, e⟩)⟩

theorem find?_eq_none_of_forall_id_ne (cs : List Customer) (i : String)
    (h : ∀ c ∈ cs, c.id ≠ i) : cs.find? (fun c => c.id == i) = none := by
  rw [List.find?_eq_none]
  intro c hc
  simpa using h c hc

theorem addAll_cons (s : AppState) (st : AddForm × Nat × Nat)
    (rest : List (AddForm × Nat × Nat)) :
    addAll s (st :: rest) = addAll (handleAddCustomer s st.1 st.2.1 st.2.2) rest := rfl

/-- The ids after a run of adds are the old ids followed by renderings of some
of the clock readings of the run, in order. -/
theorem addAll_ids (steps : List (AddForm × Nat × Nat)) (s : AppState) :
    ∃ l : List String, l.Sublist (steps.map (fun st => Nat.repr st.2.1)) ∧
      (addAll s steps).customers.map Customer.id = s.customers.map Customer.id ++ l := by
  induction steps generalizing s with
  | nil => exact ⟨[], List.Sublist.slnil, by simp [addAll]⟩
  | cons st rest ih =>
    obtain ⟨l, hl, hids⟩ := ih (handleAddCustomer s st.1 st.2.1 st.2.2)
    rw [addAll_cons, hids]
    by_cases hacc : addAccepts s.customers st.1
    · refine ⟨Nat.repr st.2.1 :: l, ?_, ?_⟩
      · simpa using hl
      · rw [handleAddCustomer_customers_of_accepts s st.1 st.2.1 st.2.2 hacc]
        simp [customerData]
    · refine ⟨l, ?_, ?_⟩
      · simpa using List.Sublist.cons _ hl
      · rw [handleAddCustomer_customers_of_not_accepts s st.1 st.2.1 st.2.2 hacc]

theorem handleConfirmDelete_customers_sublist (s : AppState) :
    (handleConfirmDelete s).customers.Sublist s.customers := by
  unfold handleConfirmDelete
  cases s.customerToDelete with
  | none => exact List.Sublist.refl _
  | some toDelete =>
    dsimp only
    cases s.customers.findIdx? (fun c => c.id == toDelete.id) with
    | none => exact List.Sublist.refl _
    | some i => exact List.eraseIdx_sublist _ _

theorem deleteCustomer_customers (s : AppState) (customerId : String) :
    (deleteCustomer s customerId).customers = s.customers := by
  unfold deleteCustomer
  cases findById s.customers customerId <;> rfl

/-- Where `findIndex` stops: either no element satisfies `p`, or the list
splits at the first element that does. -/
theorem findIdx?_split {α : Type} (p : α → Bool) (l : List α) :
    ((∀ x ∈ l, p x = false) ∧ l.findIdx? p = none) ∨
    ∃ pre a post, l = pre ++ a :: post ∧ (∀ x ∈ pre, p x = false) ∧ p a = true ∧
      l.findIdx? p = some pre.length := by
  induction l with
  | nil => exact Or.inl ⟨by simp, rfl⟩
  | cons x xs ih =>
    by_cases hx : p x = true
    · exact Or.inr ⟨[], x, xs, rfl, by simp, hx, by simp [List.findIdx?_cons, hx]⟩
    · have hx' : p x = false := by simpa using hx
      rcases ih with ⟨hall, hnone⟩ | ⟨pre, a, post, hl, hpre, ha, hidx⟩
      · refine Or.inl ⟨?_, ?_⟩
        · intro y hy
          rcases List.mem_cons.mp hy with rfl | hy
          · exact hx'
          · exact hall y hy
        · simp [List.findIdx?_cons, hx', List.findIdx?_succ, hnone]
      · refine Or.inr ⟨x :: pre, a, post, by simp [hl], ?_, ha, ?_⟩
        · intro y hy
          rcases List.mem_cons.mp hy with rfl | hy
          · exact hx'
          · exact hpre y hy
        · simp [List.findIdx?_cons, hx', List.findIdx?_succ, hidx]

theorem modify_length_append {α : Type} (f : α → α) (pre : List α) (a : α) (post : List α) :
    (pre ++ a :: post).modify f pre.length = pre ++ f a :: post := by
  induction pre with
  | nil => rfl
  | cons x xs ih => simpa [List.modify] using ih

theorem eraseIdx_length_append {α : Type} (pre : List α) (a : α) (post : List α) :
    (pre ++ a :: post).eraseIdx pre.length = pre ++ post := by
  induction pre with
  | nil => rfl
  | cons x xs ih => simpa using ih

theorem find?_prefix_append {α : Type} (p : α → Bool) (pre : List α) (a : α) (post : List α)
    (hpre : ∀ x ∈ pre, p x = false) (ha : p a = true) :
    (pre ++ a :: post).find? p = some a := by
  induction pre with
  | nil => simp [ha]
  | cons x xs ih =>
    have hx : p x = false := hpre x (List.mem_cons_self _ _)
    simp only [List.cons_append, List.find?_cons, hx]
    exact ih (fun y hy => hpre y (List.mem_cons_of_mem _ hy))

theorem getElem?_append_cons_of_ne {α : Type} (pre : List α) (a b : α) (post : List α)
    (j : Nat) (h : j ≠ pre.length) :
    (pre ++ a :: post)[j]? = (pre ++ b :: post)[j]? := by
  induction pre generalizing j with
  | nil =>
    cases j with
    | zero => exact absurd rfl h
    | succ k => simp
  | cons x xs ih =>
    cases j with
    | zero => simp
    | succ k =>
      simp only [List.cons_append, List.getElem?_cons_succ]
      exact ih k (fun e => h (by simp [e]))

theorem getElem?_append_cons_length {α : Type} (pre : List α) (a : α) (post : List α) :
    (pre ++ a :: post)[pre.length]? = some a := by
  induction pre with
  | nil => simp
  | cons x xs ih => simpa using ih

/-- The first record with a given id, when there is one. -/
theorem split_at_first_id (cs : List Customer) (i : String) (h : ∃ c ∈ cs, c.id = i) :
    ∃ pre old post, cs = pre ++ old :: post ∧ (∀ c ∈ pre, c.id ≠ i) ∧ old.id = i ∧
      cs.findIdx? (fun c => c.id == i) = some pre.length ∧
      cs.find? (fun c => c.id == i) = some old := by
  rcases findIdx?_split (fun c : Customer => c.id == i) cs with
    ⟨hall, _⟩ | ⟨pre, a, post, hl, hpre, ha, hidx⟩
  · obtain ⟨c, hc, hci⟩ := h
    have := hall c hc
    simp [hci] at this
  · refine ⟨pre, a, post, hl, ?_, by simpa using ha, hidx, ?_⟩
    · intro c hc
      simpa using hpre c hc
    · rw [hl]
      exact find?_prefix_append _ pre a post hpre ha

theorem findIdx?_eq_none_of_forall_id_ne (cs : List Customer) (i : String)
    (h : ∀ c ∈ cs, c.id ≠ i) : cs.findIdx? (fun c => c.id == i) = none := by
  rw [List.findIdx?_eq_none_iff]
  intro c hc
  simpa using h c hc

theorem includes_iff (hay needle : String) :
    includes hay needle = true ↔ needle.data <:+: hay.data := by
  unfold includes
  rw [List.any_eq_true, List.infix_iff_prefix_suffix]
  constructor
  · rintro ⟨t, ht, hp⟩
    exact ⟨t, List.isPrefixOf_iff_prefix.mp hp, (List.mem_tails t _).mp ht⟩
  · rintro ⟨t, hp, ht⟩
    exact ⟨t, (List.mem_tails t _).mpr ht, List.isPrefixOf_iff_prefix.mpr hp⟩

theorem filter_includes_eq (toLowerCase : String → String) (customers : List Customer)
    (f : Customer → String) (q : String) :
    customers.filter (fun c => includes (toLowerCase (f c)) (toLowerCase q)) =
      customers.filter (fun c => decide ((toLowerCase q).data <:+: (toLowerCase (f c)).data)) := by
  apply List.filter_congr
  intro c _
  rw [Bool.eq_iff_iff, includes_iff]
  simp

/-! ## Adding a customer: rejection and acceptance -/

/-- C1: when the trimmed name, phone or address is empty, or an existing
customer already has exactly the trimmed input phone, `handleAddCustomer` leaves
the customer collection as it was and writes nothing to storage. -/
theorem handleAddCustomer_rejected (s : AppState) (form : AddForm) (idNow dateNow : Nat)
    (h : trim form.customerName = "" ∨ trim form.customerPhone = "" ∨
      trim form.customerAddress = "" ∨
      ∃ c ∈ s.customers, c.phone = trim form.customerPhone) :
    (handleAddCustomer s form idNow dateNow).customers = s.customers ∧
    (handleAddCustomer s form idNow dateNow).storage = s.storage := by
  unfold handleAddCustomer
  simp only [customerData]
  split_ifs with h1 h2
  · exact ⟨rfl, rfl⟩
  · exact ⟨rfl, rfl⟩
  · exfalso
    rcases h with h | h | h | h
    · exact h1 (Or.inl h)
    · exact h1 (Or.inr (Or.inl h))
    · exact h1 (Or.inr (Or.inr h))
    · exact h2 ((any_phone_iff _ _).mpr h)

/-- Witness for C1: adding Ann a second time with the same phone is rejected. -/
theorem handleAddCustomer_rejected_witness :
    (∃ c ∈ annState.customers, c.phone = trim annForm.customerPhone) ∧
    (handleAddCustomer annState annForm 2000 2000).customers = annState.customers ∧
    (handleAddCustomer annState annForm 2000 2000).storage = annState.storage :=
  ⟨⟨customerData annForm 1000 1000, by decide, by decide⟩,
    handleAddCustomer_rejected annState annForm 2000 2000
      (Or.inr (Or.inr (Or.inr ⟨customerData annForm 1000 1000, by decide, by decide⟩)))⟩

/-- C2: when the trimmed name, phone and address are non-empty and no existing
customer has the trimmed phone, the collection after `handleAddCustomer` is the
old collection followed by exactly one new record: name, phone and address are
the trimmed inputs, category is the input category, email is the trimmed input
email or `N/A` when that is empty, notes are the trimmed input notes, and there
is no `lastModified`.  The record carries the clock reading as id and
`dateAdded`, and the new collection is what is persisted. -/
theorem handleAddCustomer_accepted (s : AppState) (form : AddForm) (idNow dateNow : Nat)
    (hname : trim form.customerName ≠ "") (hphone : trim form.customerPhone ≠ "")
    (haddr : trim form.customerAddress ≠ "")
    (hfresh : ∀ c ∈ s.customers, c.phone ≠ trim form.customerPhone) :
    ∃ r : Customer,
      (handleAddCustomer s form idNow dateNow).customers = s.customers ++ [r] ∧
      r.name = trim form.customerName ∧
      r.phone = trim form.customerPhone ∧
      r.address = trim form.customerAddress ∧
      r.category = form.customerCategory ∧
      r.email = (if trim form.customerEmail = "" then "N/A" else trim form.customerEmail) ∧
      r.notes = trim form.customerNotes ∧
      r.lastModified = none ∧
      r.id = Nat.repr idNow ∧
      r.dateAdded = dateNow ∧
      (handleAddCustomer s form idNow dateNow).storage.crm_customers =
        some (s.customers ++ [r]) := by
  refine ⟨customerData form idNow dateNow, ?_, rfl, rfl, rfl, rfl, rfl, ?_, rfl, rfl, rfl, ?_⟩
  · unfold handleAddCustomer
    simp only [customerData]
    split_ifs with h1 h2
    · rcases h1 with h | h | h
      · exact absurd h hname
      · exact absurd h hphone
      · exact absurd h haddr
    · obtain ⟨c, hc, hp⟩ := (any_phone_iff _ _).mp h2
      exact absurd hp (hfresh c hc)
    · rfl
  · exact orElse_empty _
  · unfold handleAddCustomer
    simp only [customerData]
    split_ifs with h1 h2
    · rcases h1 with h | h | h
      · exact absurd h hname
      · exact absurd h hphone
      · exact absurd h haddr
    · obtain ⟨c, hc, hp⟩ := (any_phone_iff _ _).mp h2
      exact absurd hp (hfresh c hc)
    · rfl

/-- Witness for C2: Ann is accepted into the empty repository. -/
theorem handleAddCustomer_accepted_witness :
    trim annForm.customerName ≠ "" ∧
    ∃ r : Customer,
      (handleAddCustomer AppState.initial annForm 1000 1000).customers =
        AppState.initial.customers ++ [r] ∧
      r.name = trim annForm.customerName ∧
      r.phone = trim annForm.customerPhone ∧
      r.address = trim annForm.customerAddress ∧
      r.category = annForm.customerCategory ∧
      r.email = (if trim annForm.customerEmail = "" then "N/A"
        else trim annForm.customerEmail) ∧
      r.notes = trim annForm.customerNotes ∧
      r.lastModified = none ∧
      r.id = Nat.repr 1000 ∧
      r.dateAdded = 1000 ∧
      (handleAddCustomer AppState.initial annForm 1000 1000).storage.crm_customers =
        some (AppState.initial.customers ++ [r]) :=
  ⟨by decide, handleAddCustomer_accepted AppState.initial annForm 1000 1000
    (by decide) (by decide) (by decide) (by decide)⟩

/-! ## Looking up the record that was just added -/

/-- C3, as stated, fails: with Ann stored under id `1000`, adding Bob at the
same clock reading is accepted, and the lookup by the id given to Bob returns
Ann's record, whose name is not Bob's. -/
theorem findById_after_add_counterexample :
    addAccepts annState.customers bobForm ∧
    (handleAddCustomer annState bobForm 1000 2000).customers =
      annState.customers ++ [customerData bobForm 1000 2000] ∧
    findById (handleAddCustomer annState bobForm 1000 2000).customers
      (customerData bobForm 1000 2000).id = some (customerData annForm 1000 1000) ∧
    (customerData annForm 1000 1000).name ≠ (customerData bobForm 1000 2000).name := by
  decide

/-- C3, amended: for every collection and every input that add accepts, if no
record of the collection already has the id assigned to the new record, the
lookup by that id after the add returns the record built from the input, so it
agrees with the (trimmed, defaulted) input in every field other than `id` and
`dateAdded`. -/
theorem findById_after_add (s : AppState) (form : AddForm) (idNow dateNow : Nat)
    (hacc : addAccepts s.customers form)
    (hid : ∀ c ∈ s.customers, c.id ≠ Nat.repr idNow) :
    ∃ r : Customer,
      findById (handleAddCustomer s form idNow dateNow).customers (Nat.repr idNow) = some r ∧
      r.name = trim form.customerName ∧
      r.phone = trim form.customerPhone ∧
      r.address = trim form.customerAddress ∧
      r.email = orElse (trim form.customerEmail) "N/A" ∧
      r.category = form.customerCategory ∧
      r.notes = trim form.customerNotes ∧
      r.lastModified = none := by
  refine ⟨customerData form idNow dateNow, ?_, rfl, rfl, rfl, rfl, rfl, orElse_empty _, rfl⟩
  rw [handleAddCustomer_customers_of_accepts s form idNow dateNow hacc]
  unfold findById
  rw [List.find?_append, find?_eq_none_of_forall_id_ne s.customers _ hid]
  simp [customerData]

/-- Witness for C3: Bob is added to Ann's repository at a later clock reading. -/
theorem findById_after_add_witness :
    addAccepts annState.customers bobForm ∧
    (∀ c ∈ annState.customers, c.id ≠ Nat.repr 2000) ∧
    ∃ r : Customer,
      findById (handleAddCustomer annState bobForm 2000 2000).customers (Nat.repr 2000) =
        some r ∧
      r.name = trim bobForm.customerName ∧
      r.phone = trim bobForm.customerPhone ∧
      r.address = trim bobForm.customerAddress ∧
      r.email = orElse (trim bobForm.customerEmail) "N/A" ∧
      r.category = bobForm.customerCategory ∧
      r.notes = trim bobForm.customerNotes ∧
      r.lastModified = none :=
  ⟨by decide, by decide,
    findById_after_add annState bobForm 2000 2000 (by decide) (by decide)⟩

/-! ## Uniqueness of ids -/

/-- C4, as stated, fails: starting from the empty collection, Ann and Bob are
both accepted at the same clock reading `1000`, and the resulting collection
holds the id `1000` twice. -/
theorem ids_distinct_counterexample :
    addAccepts AppState.initial.customers annForm ∧
    addAccepts (handleAddCustomer AppState.initial annForm 1000 1000).customers bobForm ∧
    (addAll AppState.initial [(annForm, 1000, 1000), (bobForm, 1000, 2000)]).customers.map
      Customer.id = ["1000", "1000"] ∧
    ¬ ((addAll AppState.initial [(annForm, 1000, 1000), (bobForm, 1000, 2000)]).customers.map
      Customer.id).Nodup := by
  decide

/-- C4, amended: every id is the decimal rendering of the `Date.now()` reading
of the add that created it, so in every collection built from the empty
collection by a sequence of adds whose `Date.now()` readings are pairwise
distinct, the ids are pairwise distinct. -/
theorem ids_nodup_of_distinct_readings (steps : List (AddForm × Nat × Nat))
    (h : (steps.map (fun st => st.2.1)).Nodup) :
    ((addAll AppState.initial steps).customers.map Customer.id).Nodup := by
  obtain ⟨l, hl, hids⟩ := addAll_ids steps AppState.initial
  rw [hids]
  have hrepr : (steps.map (fun st => Nat.repr st.2.1)).Nodup := by
    have := List.Nodup.map repr_injective h
    simpa [List.map_map, Function.comp_def] using this
  simpa [AppState.initial] using hrepr.sublist hl

/-- Witness for C4: Ann at reading `1000`, Bob at reading `2000`. -/
theorem ids_nodup_of_distinct_readings_witness :
    ([(annForm, 1000, 1000), (bobForm, 2000, 2000)].map (fun st => st.2.1)).Nodup ∧
    ((addAll AppState.initial [(annForm, 1000, 1000), (bobForm, 2000, 2000)]).customers.map
      Customer.id).Nodup :=
  ⟨by decide, ids_nodup_of_distinct_readings [(annForm, 1000, 1000), (bobForm, 2000, 2000)]
    (by decide)⟩

/-! ## Uniqueness of phones -/

/-- C5: in a collection whose phones are pairwise distinct, the phones are
still pairwise distinct after any `handleAddCustomer` call, accepted or
rejected, after any `handleConfirmDelete`, and after `deleteCustomer` followed
by `handleConfirmDelete`. -/
theorem phones_nodup_preserved (s : AppState)
    (h : (s.customers.map Customer.phone).Nodup) :
    (∀ (form : AddForm) (idNow dateNow : Nat),
      ((handleAddCustomer s form idNow dateNow).customers.map Customer.phone).Nodup) ∧
    ((handleConfirmDelete s).customers.map Customer.phone).Nodup ∧
    (∀ customerId : String,
      ((handleConfirmDelete (deleteCustomer s customerId)).customers.map
        Customer.phone).Nodup) := by
  refine ⟨?_, ?_, ?_⟩
  · intro form idNow dateNow
    by_cases hacc : addAccepts s.customers form
    · rw [handleAddCustomer_customers_of_accepts s form idNow dateNow hacc]
      rw [List.map_append, List.nodup_append]
      refine ⟨h, by simp, ?_⟩
      intro a ha hb
      simp only [List.map_cons, List.map_nil, List.mem_singleton] at hb
      obtain ⟨c, hc, rfl⟩ := List.mem_map.mp ha
      exact hacc.2.2.2 c hc hb
    · rw [handleAddCustomer_customers_of_not_accepts s form idNow dateNow hacc]
      exact h
  · exact h.sublist ((handleConfirmDelete_customers_sublist s).map _)
  · intro customerId
    have hsub := handleConfirmDelete_customers_sublist (deleteCustomer s customerId)
    rw [deleteCustomer_customers] at hsub
    exact h.sublist (hsub.map _)

/-- Witness for C5: Ann and Bob have different phones. -/
theorem phones_nodup_preserved_witness :
    (twoState.customers.map Customer.phone).Nodup ∧
    (∀ (form : AddForm) (idNow dateNow : Nat),
      ((handleAddCustomer twoState form idNow dateNow).customers.map Customer.phone).Nodup) ∧
    ((handleConfirmDelete twoState).customers.map Customer.phone).Nodup ∧
    (∀ customerId : String,
      ((handleConfirmDelete (deleteCustomer twoState customerId)).customers.map
        Customer.phone).Nodup) :=
  ⟨by decide, phones_nodup_preserved twoState (by decide)⟩

/-- C6: an edit can introduce a duplicate phone.  In the collection holding Ann
(phone `555-1`) and Bob (phone `555-2`) the phones are pairwise distinct, Bob's
id is present, and after `handleEditCustomer` with Ann's phone typed into Bob's
form the records at positions 0 and 1 are different records with the same
phone. -/
theorem handleEditCustomer_can_duplicate_phone :
    ∃ (s : AppState) (form : EditForm) (now : Nat),
      (s.customers.map Customer.phone).Nodup ∧
      (∃ c ∈ s.customers, c.id = form.editCustomerId) ∧
      ∃ (i j : Nat) (a b : Customer), i ≠ j ∧
        (handleEditCustomer s form now).customers[i]? = some a ∧
        (handleEditCustomer s form now).customers[j]? = some b ∧
        a ≠ b ∧ a.phone = b.phone :=
  ⟨twoState, bobEdit, 3000, by decide,
    ⟨customerData bobForm 2000 2000, by decide, by decide⟩,
    0, 1, customerData annForm 1000 1000,
    editedCustomer (customerData bobForm 2000 2000) bobEdit 3000,
    by decide, by decide, by decide, by decide, by decide⟩

/-! ## Editing and deleting by id -/

/-- C7: if no record has the id of the edit form, `handleEditCustomer` changes
nothing.  Otherwise the collection splits at the first record `old` with that
id, and after the edit it is the same collection with `old` replaced, at the
same index, by a record that keeps the id and `dateAdded` of `old`, takes name,
phone, address, email, category and notes from the (trimmed) form values, and
has `lastModified` set; the length and every other index are unchanged. -/
theorem handleEditCustomer_frame (s : AppState) (form : EditForm) (now : Nat) :
    ((∀ c ∈ s.customers, c.id ≠ form.editCustomerId) →
      handleEditCustomer s form now = s) ∧
    ((∃ c ∈ s.customers, c.id = form.editCustomerId) →
      ∃ (pre : List Customer) (old : Customer) (post : List Customer) (upd : Customer),
        s.customers = pre ++ old :: post ∧
        (∀ c ∈ pre, c.id ≠ form.editCustomerId) ∧
        old.id = form.editCustomerId ∧
        (handleEditCustomer s form now).customers = pre ++ upd :: post ∧
        (handleEditCustomer s form now).customers.length = s.customers.length ∧
        (∀ j : Nat, j ≠ pre.length →
          (handleEditCustomer s form now).customers[j]? = s.customers[j]?) ∧
        (handleEditCustomer s form now).customers[pre.length]? = some upd ∧
        upd.id = old.id ∧
        upd.dateAdded = old.dateAdded ∧
        upd.name = trim form.editCustomerName ∧
        upd.phone = trim form.editCustomerPhone ∧
        upd.address = trim form.editCustomerAddress ∧
        upd.email = orElse (trim form.editCustomerEmail) "N/A" ∧
        upd.category = form.editCustomerCategory ∧
        upd.notes = trim form.editCustomerNotes ∧
        upd.lastModified = some now) := by
  constructor
  · intro h
    unfold handleEditCustomer
    rw [findIdx?_eq_none_of_forall_id_ne s.customers _ h]
  · intro h
    obtain ⟨pre, old, post, hl, hpre, hold, hidx, _⟩ :=
      split_at_first_id s.customers form.editCustomerId h
    have hcs : (handleEditCustomer s form now).customers =
        pre ++ editedCustomer old form now :: post := by
      unfold handleEditCustomer
      rw [hidx]
      simp only [showMessage, saveDataToStorage]
      rw [hl]
      exact modify_length_append _ pre old post
    refine ⟨pre, old, post, editedCustomer old form now, hl, hpre, hold, hcs, ?_, ?_, ?_,
      rfl, rfl, rfl, rfl, rfl, rfl, rfl, orElse_empty _, rfl⟩
    · rw [hcs, hl]
      simp
    · intro j hj
      rw [hcs, hl]
      exact getElem?_append_cons_of_ne pre _ _ post j hj
    · rw [hcs]
      exact getElem?_append_cons_length pre _ post

/-- Witness for C7: editing with Bob's id in the collection that holds only Ann
changes nothing, and editing Bob (id `2000`) in the collection of Ann and Bob
replaces his record in place. -/
theorem handleEditCustomer_frame_witness :
    (∀ c ∈ annState.customers, c.id ≠ bobEdit.editCustomerId) ∧
    handleEditCustomer annState bobEdit 3000 = annState ∧
    (∃ c ∈ twoState.customers, c.id = bobEdit.editCustomerId) ∧
    ∃ (pre : List Customer) (old : Customer) (post : List Customer) (upd : Customer),
      twoState.customers = pre ++ old :: post ∧
      (handleEditCustomer twoState bobEdit 3000).customers = pre ++ upd :: post ∧
      upd.id = old.id ∧ upd.lastModified = some 3000 :=
  ⟨by decide,
    (handleEditCustomer_frame annState bobEdit 3000).1 (by decide),
    ⟨customerData bobForm 2000 2000, by decide, by decide⟩,
    by
      obtain ⟨pre, old, post, upd, h1, _, _, h4, _, _, _, h8, _, _, _, _, _, _, _, h16⟩ :=
        (handleEditCustomer_frame twoState bobEdit 3000).2
          ⟨customerData bobForm 2000 2000, by decide, by decide⟩
      exact ⟨pre, old, post, upd, h1, h4, h8, h16⟩⟩

/-- C8, as stated, fails: with Ann stored and her deletion still pending
(`deleteCustomer` was called with her id and not yet confirmed), `deleteCustomer`
with an id that no record has followed by `handleConfirmDelete` removes Ann. -/
theorem delete_absent_id_counterexample :
    (∀ c ∈ (deleteCustomer annState "1000").customers, c.id ≠ "nope") ∧
    (deleteCustomer annState "1000").customers = [customerData annForm 1000 1000] ∧
    (handleConfirmDelete (deleteCustomer (deleteCustomer annState "1000") "nope")).customers
      = [] := by
  decide

/-- C8, amended: when no deletion is pending (`window.customerToDelete` is
unset), `deleteCustomer` followed by `handleConfirmDelete` with an id that no
record has changes nothing; with an id that is present (whatever was pending)
it yields the collection with exactly the first record having that id removed,
so the length drops by one and all other records keep their relative order. -/
theorem delete_by_id (s : AppState) (customerId : String) :
    ((∀ c ∈ s.customers, c.id ≠ customerId) → s.customerToDelete = none →
      handleConfirmDelete (deleteCustomer s customerId) = s) ∧
    ((∃ c ∈ s.customers, c.id = customerId) →
      ∃ (pre : List Customer) (old : Customer) (post : List Customer),
        s.customers = pre ++ old :: post ∧
        (∀ c ∈ pre, c.id ≠ customerId) ∧
        old.id = customerId ∧
        (handleConfirmDelete (deleteCustomer s customerId)).customers = pre ++ post ∧
        (handleConfirmDelete (deleteCustomer s customerId)).customers.length + 1 =
          s.customers.length) := by
  constructor
  · intro h hnone
    have hfind : findById s.customers customerId = none :=
      find?_eq_none_of_forall_id_ne s.customers customerId h
    unfold deleteCustomer
    rw [hfind]
    unfold handleConfirmDelete
    rw [hnone]
  · intro h
    obtain ⟨pre, old, post, hl, hpre, hold, hidx, hfind⟩ :=
      split_at_first_id s.customers customerId h
    have hcs : (handleConfirmDelete (deleteCustomer s customerId)).customers = pre ++ post := by
      unfold deleteCustomer findById
      rw [hfind]
      unfold handleConfirmDelete
      simp only [hold, hidx, showMessage, saveDataToStorage]
      rw [hl]
      exact eraseIdx_length_append pre old post
    refine ⟨pre, old, post, hl, hpre, hold, hcs, ?_⟩
    rw [hcs, hl]
    simp
    omega

/-- Witness for C8: deleting an unknown id from Ann's repository with nothing
pending, and deleting Bob from the collection of Ann and Bob. -/
theorem delete_by_id_witness :
    (∀ c ∈ annState.customers, c.id ≠ "nope") ∧ annState.customerToDelete = none ∧
    handleConfirmDelete (deleteCustomer annState "nope") = annState ∧
    (∃ c ∈ twoState.customers, c.id = "2000") ∧
    ∃ (pre : List Customer) (old : Customer) (post : List Customer),
      twoState.customers = pre ++ old :: post ∧
      (∀ c ∈ pre, c.id ≠ "2000") ∧
      old.id = "2000" ∧
      (handleConfirmDelete (deleteCustomer twoState "2000")).customers = pre ++ post ∧
      (handleConfirmDelete (deleteCustomer twoState "2000")).customers.length + 1 =
        twoState.customers.length :=
  ⟨by decide, by decide,
    (delete_by_id annState "nope").1 (by decide) (by decide),
    ⟨customerData bobForm 2000 2000, by decide, by decide⟩,
    (delete_by_id twoState "2000").2 ⟨customerData bobForm 2000 2000, by decide, by decide⟩⟩

/-! ## Searching -/

/-- C9: for the field `name` (and likewise `phone`) and every value of the
search box: if the trimmed query is empty, `searchCustomers` reports an error
and nothing is passed to `displaySearchResults`; otherwise the result passed to
`displaySearchResults` is exactly the customers, in collection order, whose
lower-cased field value contains the lower-cased trimmed query as a contiguous
substring, and when no customer matches that result is the empty sequence, not
an error. -/
theorem searchCustomers_spec (toLowerCase : String → String) (customers : List Customer)
    (searchByName searchByPhone : String) :
    (trim searchByName = "" →
      searchCustomers toLowerCase customers searchByName searchByPhone "name" =
        .error "Please enter a name to search.") ∧
    (trim searchByName ≠ "" →
      searchCustomers toLowerCase customers searchByName searchByPhone "name" =
        .displayed
          (customers.filter (fun c =>
            decide ((toLowerCase (trim searchByName)).data <:+: (toLowerCase c.name).data)))
          "name" (trim searchByName)) ∧
    (trim searchByName ≠ "" →
      (∀ c ∈ customers,
        ¬ (toLowerCase (trim searchByName)).data <:+: (toLowerCase c.name).data) →
      searchCustomers toLowerCase customers searchByName searchByPhone "name" =
        .displayed [] "name" (trim searchByName)) ∧
    (trim searchByPhone = "" →
      searchCustomers toLowerCase customers searchByName searchByPhone "phone" =
        .error "Please enter a phone to search.") ∧
    (trim searchByPhone ≠ "" →
      searchCustomers toLowerCase customers searchByName searchByPhone "phone" =
        .displayed
          (customers.filter (fun c =>
            decide ((toLowerCase (trim searchByPhone)).data <:+: (toLowerCase c.phone).data)))
          "phone" (trim searchByPhone)) ∧
    (trim searchByPhone ≠ "" →
      (∀ c ∈ customers,
        ¬ (toLowerCase (trim searchByPhone)).data <:+: (toLowerCase c.phone).data) →
      searchCustomers toLowerCase customers searchByName searchByPhone "phone" =
        .displayed [] "phone" (trim searchByPhone)) := by
  have hname : ∀ h : trim searchByName ≠ "",
      searchCustomers toLowerCase customers searchByName searchByPhone "name" =
        .displayed
          (customers.filter (fun c =>
            decide ((toLowerCase (trim searchByName)).data <:+: (toLowerCase c.name).data)))
          "name" (trim searchByName) := by
    intro h
    unfold searchCustomers
    simp only [if_true, if_neg h]
    rw [← filter_includes_eq toLowerCase customers Customer.name]
    rfl
  have hphone : ∀ h : trim searchByPhone ≠ "",
      searchCustomers toLowerCase customers searchByName searchByPhone "phone" =
        .displayed
          (customers.filter (fun c =>
            decide ((toLowerCase (trim searchByPhone)).data <:+: (toLowerCase c.phone).data)))
          "phone" (trim searchByPhone) := by
    intro h
    have hne : ("phone" : String) ≠ "name" := by decide
    unfold searchCustomers
    simp only [if_neg hne, if_neg h]
    rw [← filter_includes_eq toLowerCase customers Customer.phone]
    simp [Customer.field]
  refine ⟨?_, hname, ?_, ?_, hphone, ?_⟩
  · intro h
    unfold searchCustomers
    simp only [if_true, if_pos h]
    rfl
  · intro h hno
    rw [hname h, List.filter_eq_nil_iff.mpr]
    intro c hc
    simpa using hno c hc
  · intro h
    have hne : ("phone" : String) ≠ "name" := by decide
    unfold searchCustomers
    simp only [if_neg hne, if_pos h]
    rfl
  · intro h hno
    rw [hphone h, List.filter_eq_nil_iff.mpr]
    intro c hc
    simpa using hno c hc

/-- Witness for C9: searching Ann and Bob by name for ` AN ` finds Ann, searching
for `xyz` finds nobody without an error, and an all-blank phone box is an
error. -/
theorem searchCustomers_spec_witness :
    trim " AN " ≠ "" ∧
    searchCustomers asciiLower twoState.customers " AN " "  " "name" =
      .displayed
        (twoState.customers.filter (fun c =>
          decide ((asciiLower (trim " AN ")).data <:+: (asciiLower c.name).data)))
        "name" (trim " AN ") ∧
    searchCustomers asciiLower twoState.customers " AN " "  " "name" =
      .displayed [customerData annForm 1000 1000] "name" "AN" ∧
    searchCustomers asciiLower twoState.customers "xyz" "  " "name" =
      .displayed [] "name" (trim "xyz") ∧
    trim "  " = "" ∧
    searchCustomers asciiLower twoState.customers " AN " "  " "phone" =
      .error "Please enter a phone to search." :=
  ⟨by decide,
    (searchCustomers_spec asciiLower twoState.customers " AN " "  ").2.1 (by decide),
    by decide,
    (searchCustomers_spec asciiLower twoState.customers "xyz" "  ").2.2.1 (by decide)
      (by decide),
    by decide,
    (searchCustomers_spec asciiLower twoState.customers " AN " "  ").2.2.2.1 (by decide)⟩

/-! ## Product counters -/

/-- C10: for every prior state and all parsed inputs: if any of the four
numbers is negative or `sold > total`, `handleUpdateProducts` leaves the
counters (and storage) unchanged; otherwise the counters become exactly
`{total, sold, price, capital}`, all four fields replaced together and
persisted, so the new counters satisfy `0 ≤ sold ≤ total`, `price ≥ 0` and
`capital ≥ 0`. -/
theorem handleUpdateProducts_spec (s : AppState) (total sold : Int) (capital price : Rat) :
    ((total < 0 ∨ sold < 0 ∨ price < 0 ∨ capital < 0 ∨ sold > total) →
      (handleUpdateProducts s total sold capital price).products = s.products ∧
      (handleUpdateProducts s total sold capital price).storage = s.storage) ∧
    (¬ (total < 0 ∨ sold < 0 ∨ price < 0 ∨ capital < 0 ∨ sold > total) →
      (handleUpdateProducts s total sold capital price).products =
        { total := total, sold := sold, price := price, capital := capital } ∧
      (handleUpdateProducts s total sold capital price).storage.crm_products =
        some { total := total, sold := sold, price := price, capital := capital } ∧
      0 ≤ (handleUpdateProducts s total sold capital price).products.sold ∧
      (handleUpdateProducts s total sold capital price).products.sold ≤
        (handleUpdateProducts s total sold capital price).products.total ∧
      0 ≤ (handleUpdateProducts s total sold capital price).products.price ∧
      0 ≤ (handleUpdateProducts s total sold capital price).products.capital) := by
  constructor
  · intro h
    unfold handleUpdateProducts
    split_ifs with h1 h2
    · exact ⟨rfl, rfl⟩
    · exact ⟨rfl, rfl⟩
    · exfalso
      rcases h with h | h | h | h | h
      · exact h1 (Or.inl h)
      · exact h1 (Or.inr (Or.inl h))
      · exact h1 (Or.inr (Or.inr (Or.inr h)))
      · exact h1 (Or.inr (Or.inr (Or.inl h)))
      · exact h2 h
  · intro h
    have ht : ¬ total < 0 := fun e => h (Or.inl e)
    have hs : ¬ sold < 0 := fun e => h (Or.inr (Or.inl e))
    have hp : ¬ price < 0 := fun e => h (Or.inr (Or.inr (Or.inl e)))
    have hc : ¬ capital < 0 := fun e => h (Or.inr (Or.inr (Or.inr (Or.inl e))))
    have hst : ¬ sold > total := fun e => h (Or.inr (Or.inr (Or.inr (Or.inr e))))
    have hval : handleUpdateProducts s total sold capital price =
        showMessage (saveDataToStorage { s with
          products := { total := total, sold := sold, price := price, capital := capital } })
          "Products and capital updated successfully!" .success := by
      unfold handleUpdateProducts
      rw [if_neg, if_neg hst]
      rintro (e | e | e | e)
      · exact ht e
      · exact hs e
      · exact hc e
      · exact hp e
    rw [hval]
    refine ⟨rfl, rfl, ?_, ?_, ?_, ?_⟩
    · exact not_lt.mp hs
    · exact not_lt.mp hst
    · exact not_lt.mp hp
    · exact not_lt.mp hc

/-- Witness for C10: `total = 10, sold = 15` is rejected and leaves the sample
counters in place; `total = 100, sold = 25, price = 29.99, capital = 5000` is
accepted from the initial state. -/
theorem handleUpdateProducts_spec_witness :
    ((10 : Int) < 0 ∨ (15 : Int) < 0 ∨ (2 : Rat) < 0 ∨ (1 : Rat) < 0 ∨ (15 : Int) > 10) ∧
    ((handleUpdateProducts { AppState.initial with products := sampleProducts }
        10 15 1 2).products = sampleProducts ∧
      (handleUpdateProducts { AppState.initial with products := sampleProducts }
        10 15 1 2).storage = AppState.initial.storage) ∧
    ¬ ((100 : Int) < 0 ∨ (25 : Int) < 0 ∨ (2999 / 100 : Rat) < 0 ∨ (5000 : Rat) < 0 ∨
      (25 : Int) > 100) ∧
    (handleUpdateProducts AppState.initial 100 25 5000 (2999 / 100)).products =
      { total := 100, sold := 25, price := 2999 / 100, capital := 5000 } :=
  ⟨by decide,
    (handleUpdateProducts_spec { AppState.initial with products := sampleProducts }
      10 15 1 2).1 (by decide),
    by norm_num,
    ((handleUpdateProducts_spec AppState.initial 100 25 5000 (2999 / 100)).2
      (by norm_num)).1⟩

/-! ## Financial report -/

example : binary64 (2999 / 100) = 8441434551552573 / 281474976710656 := by decide!
example : binary64 (1 / 2) = 1 / 2 := by decide!
example : binary64 (2999 / 4) = 2999 / 4 := by decide!

/-- C11: for every product record (and every rounding of the arithmetic, exact
arithmetic included) the financial report computes revenue = sold × price, the
same value `updateStatistics` shows as available funds, profit = revenue −
capital, and roi = profit / capital × 100 when capital > 0 and exactly 0 when
capital = 0.  For `{total: 100, sold: 25, price: 29.99, capital: 5000}` revenue
is 749.75 and roi is −85.005, both in exact arithmetic and in double
precision. -/
theorem updateFinancialReport_spec (rnd : Rat → Rat) (p : Products) (customers : List Customer) :
    (updateFinancialReport rnd p).totalRevenue = rnd (p.sold * p.price) ∧
    (updateStatistics rnd customers p).availableFunds = rnd (p.sold * p.price) ∧
    (updateFinancialReport rnd p).totalProfit =
      rnd ((updateFinancialReport rnd p).totalRevenue - p.capital) ∧
    (p.capital > 0 →
      (updateFinancialReport rnd p).roi =
        rnd (rnd ((updateFinancialReport rnd p).totalProfit / p.capital) * 100)) ∧
    (p.capital = 0 → (updateFinancialReport rnd p).roi = 0) ∧
    (updateFinancialReport id sampleProducts).totalRevenue = 2999 / 4 ∧
    (updateFinancialReport id sampleProducts).roi = -(17001 / 200) ∧
    (updateFinancialReport binary64 sampleProducts64).totalRevenue = 2999 / 4 ∧
    (updateFinancialReport binary64 sampleProducts64).roi = binary64 (-(17001 / 200)) := by
  refine ⟨rfl, rfl, rfl, ?_, ?_, ?_, ?_, ?_, ?_⟩
  · intro h
    simp only [updateFinancialReport, if_pos h]
  · intro h
    have h0 : ¬ p.capital > 0 := by rw [h]; exact lt_irrefl 0
    simp only [updateFinancialReport, if_neg h0]
  · decide!
  · decide!
  · decide!
  · decide!

/-- Witness for C11: the sample counters have positive capital, the initial
counters have capital 0. -/
theorem updateFinancialReport_spec_witness :
    sampleProducts.capital > 0 ∧
    (updateFinancialReport id sampleProducts).roi =
      id (id ((updateFinancialReport id sampleProducts).totalProfit / sampleProducts.capital) *
        100) ∧
    AppState.initial.products.capital = 0 ∧
    (updateFinancialReport binary64 AppState.initial.products).roi = 0 :=
  ⟨by decide!,
    (updateFinancialReport_spec id sampleProducts []).2.2.2.1 (by decide!),
    rfl,
    (updateFinancialReport_spec binary64 AppState.initial.products []).2.2.2.2.1 rfl⟩

/-! ## Growth rate -/

theorem filter_length_recent (customers : List Customer) (cutoff : Int) :
    (customers.filter (fun customer => decide ((customer.dateAdded : Int) > cutoff))).length =
      recentCount customers cutoff := by
  unfold recentCount
  rw [List.countP_eq_length_filter]

theorem recent_add_previous (customers : List Customer) (cutoff : Int) :
    recentCount customers cutoff + previousCount customers cutoff = customers.length := by
  unfold recentCount previousCount
  induction customers with
  | nil => rfl
  | cons c cs ih =>
    by_cases h : (c.dateAdded : Int) > cutoff
    · have h' : ¬ (c.dateAdded : Int) ≤ cutoff := not_le.mpr h
      simp only [List.countP_cons, h, h', decide_True, decide_False, if_true, List.length_cons]
      simp only [Bool.false_eq_true, if_false]
      omega
    · have h' : (c.dateAdded : Int) ≤ cutoff := not_lt.mp h
      simp only [List.countP_cons, h, h', decide_True, decide_False, if_true, List.length_cons]
      simp only [Bool.false_eq_true, if_false]
      omega

/-- The value of `calculateGrowthRate` in terms of the two groups. -/
theorem calculateGrowthRate_eq (rnd : Rat → Rat) (customers : List Customer) (cutoff : Int) :
    calculateGrowthRate rnd customers cutoff =
      if customers.length < 2 then 0
      else if previousCount customers cutoff = 0 then
        (if recentCount customers cutoff > 0 then 100 else 0)
      else
        rnd (rnd (rnd ((recentCount customers cutoff : Rat) - (previousCount customers cutoff : Rat)) /
          (previousCount customers cutoff : Rat)) * 100) := by
  have hp : customers.length - recentCount customers cutoff = previousCount customers cutoff := by
    have := recent_add_previous customers cutoff
    omega
  unfold calculateGrowthRate
  simp only [filter_length_recent, hp]

/-- C12, as stated, fails: a list holding a single customer, added after the
cutoff, has an empty earlier group and contains a customer, yet the growth rate
is 0, not 100. -/
theorem growthRate_single_recent_counterexample :
    previousCount annState.customers 500 = 0 ∧
    annState.customers.length = 1 ∧
    calculateGrowthRate id annState.customers 500 = 0 ∧
    calculateGrowthRate binary64 annState.customers 500 = 0 ∧
    calculateGrowthRate id annState.customers 500 ≠ 100 := by
  refine ⟨by decide, by decide, ?_, ?_, ?_⟩
  · rw [calculateGrowthRate_eq]; rfl
  · rw [calculateGrowthRate_eq]; rfl
  · rw [calculateGrowthRate_eq]; decide!

/-- C12, amended: for every customer list in which no customer was added at or
before the growth cutoff, `calculateGrowthRate` returns 100 if the list contains
at least two customers and 0 if it contains fewer than two (none or one). -/
theorem calculateGrowthRate_no_previous (rnd : Rat → Rat) (customers : List Customer)
    (cutoff : Int) (h : ∀ c ∈ customers, (c.dateAdded : Int) > cutoff) :
    (2 ≤ customers.length → calculateGrowthRate rnd customers cutoff = 100) ∧
    (customers.length < 2 → calculateGrowthRate rnd customers cutoff = 0) := by
  have hprev : previousCount customers cutoff = 0 := by
    unfold previousCount
    rw [List.countP_eq_zero]
    intro c hc
    simpa using h c hc
  have hrec : recentCount customers cutoff = customers.length := by
    have := recent_add_previous customers cutoff
    omega
  rw [calculateGrowthRate_eq]
  constructor
  · intro h2
    have h2' : ¬ customers.length < 2 := by omega
    have hpos : customers.length > 0 := by omega
    simp only [if_neg h2', hprev, hrec, if_pos hpos, if_true]
  · intro h2
    simp only [if_pos h2]

/-- Witness for C12: Ann and Bob are both recent, Ann alone is recent. -/
theorem calculateGrowthRate_no_previous_witness :
    (∀ c ∈ twoState.customers, (c.dateAdded : Int) > 500) ∧
    2 ≤ twoState.customers.length ∧
    calculateGrowthRate binary64 twoState.customers 500 = 100 ∧
    (∀ c ∈ annState.customers, (c.dateAdded : Int) > 500) ∧
    annState.customers.length < 2 ∧
    calculateGrowthRate binary64 annState.customers 500 = 0 :=
  ⟨by decide, by decide,
    (calculateGrowthRate_no_previous binary64 twoState.customers 500 (by decide)).1 (by decide),
    by decide, by decide,
    (calculateGrowthRate_no_previous binary64 annState.customers 500 (by decide)).2 (by decide)⟩

/-- C13, as stated, fails: for a list holding a single customer, added before
the cutoff, recent = 0 and previous = 1, so the formula gives −100, but
`calculateGrowthRate` returns 0. -/
theorem growthRate_single_previous_counterexample :
    (∃ c ∈ annState.customers, (c.dateAdded : Int) ≤ 5000) ∧
    recentCount annState.customers 5000 = 0 ∧
    previousCount annState.customers 5000 = 1 ∧
    calculateGrowthRate id annState.customers 5000 = 0 ∧
    (((recentCount annState.customers 5000 : Rat) - (previousCount annState.customers 5000 : Rat)) /
      (previousCount annState.customers 5000 : Rat)) * 100 = -100 := by
  have h0 : recentCount annState.customers 5000 = 0 := by decide
  have h1 : previousCount annState.customers 5000 = 1 := by decide
  refine ⟨⟨customerData annForm 1000 1000, by decide, by decide⟩, h0, h1, ?_, ?_⟩
  · rw [calculateGrowthRate_eq]; rfl
  · rw [h0, h1]; norm_num

/-- C13, amended: for every list of at least two customers in which at least
one customer was added at or before the growth cutoff, `calculateGrowthRate`
returns (recent − previous) / previous × 100, each operation rounded by the
arithmetic in use, where recent counts the customers added strictly after the
cutoff and previous counts all others. -/
theorem calculateGrowthRate_with_previous (rnd : Rat → Rat) (customers : List Customer)
    (cutoff : Int) (hlen : 2 ≤ customers.length)
    (h : ∃ c ∈ customers, (c.dateAdded : Int) ≤ cutoff) :
    calculateGrowthRate rnd customers cutoff =
      rnd (rnd (rnd ((recentCount customers cutoff : Rat) - (previousCount customers cutoff : Rat)) /
        (previousCount customers cutoff : Rat)) * 100) ∧
    calculateGrowthRate id customers cutoff =
      ((recentCount customers cutoff : Rat) - (previousCount customers cutoff : Rat)) /
        (previousCount customers cutoff : Rat) * 100 ∧
    recentCount customers cutoff + previousCount customers cutoff = customers.length := by
  have hprev : previousCount customers cutoff ≠ 0 := by
    unfold previousCount
    rw [Ne, List.countP_eq_zero]
    intro hall
    obtain ⟨c, hc, hle⟩ := h
    have := hall c hc
    simp [hle] at this
  have h2 : ¬ customers.length < 2 := by omega
  refine ⟨?_, ?_, recent_add_previous customers cutoff⟩
  · rw [calculateGrowthRate_eq]
    simp only [if_neg h2, if_neg hprev]
  · rw [calculateGrowthRate_eq]
    simp only [if_neg h2, if_neg hprev, id]

/-- Witness for C13: Ann (added at 1000) is before the cutoff 1500, Bob (added
at 2000) after it. -/
theorem calculateGrowthRate_with_previous_witness :
    2 ≤ twoState.customers.length ∧
    (∃ c ∈ twoState.customers, (c.dateAdded : Int) ≤ 1500) ∧
    calculateGrowthRate id twoState.customers 1500 =
      ((recentCount twoState.customers 1500 : Rat) - (previousCount twoState.customers 1500 : Rat)) /
        (previousCount twoState.customers 1500 : Rat) * 100 :=
  ⟨by decide, ⟨customerData annForm 1000 1000, by decide, by decide⟩,
    (calculateGrowthRate_with_previous id twoState.customers 1500 (by decide)
      ⟨customerData annForm 1000 1000, by decide, by decide⟩).2.1⟩

/-! ## Dictionaries -/

theorem dictGet_eq_none_iff {κ α : Type} [DecidableEq κ] (d : Dict κ α) (k : κ) :
    dictGet d k = none ↔ k ∉ d.map Prod.fst := by
  induction d with
  | nil => simp [dictGet]
  | cons e rest ih =>
    obtain ⟨k', v⟩ := e
    by_cases h : k' = k
    · simp [dictGet, h]
    · have h' : ¬ k = k' := fun e => h e.symm
      simp [dictGet, h, h', ih]

theorem dictGet_of_mem {κ α : Type} [DecidableEq κ] (d : Dict κ α) (k : κ) (v : α)
    (hnd : (d.map Prod.fst).Nodup) (hmem : (k, v) ∈ d) : dictGet d k = some v := by
  induction d with
  | nil => simp at hmem
  | cons e rest ih =>
    obtain ⟨k', v'⟩ := e
    simp only [List.map_cons, List.nodup_cons] at hnd
    rcases List.mem_cons.mp hmem with heq | hrest
    · injection heq with h1 h2
      simp [dictGet, h1, h2]
    · have hk : k ∈ rest.map Prod.fst := List.mem_map.mpr ⟨(k, v), hrest, rfl⟩
      have hne : ¬ k' = k := fun e => hnd.1 (e ▸ hk)
      simp only [dictGet, if_neg hne]
      exact ih hnd.2 hrest

theorem dictSet_keys_of_not_mem {κ α : Type} [DecidableEq κ] (d : Dict κ α) (k : κ) (v : α)
    (h : k ∉ d.map Prod.fst) : (dictSet d k v).map Prod.fst = d.map Prod.fst ++ [k] := by
  induction d with
  | nil => rfl
  | cons e rest ih =>
    obtain ⟨k', v'⟩ := e
    simp only [List.map_cons, List.mem_cons, not_or] at h
    have hne : ¬ k' = k := fun e => h.1 e.symm
    simp only [dictSet, if_neg hne, List.map_cons, List.cons_append, ih h.2]

theorem dictSet_keys_of_mem {κ α : Type} [DecidableEq κ] (d : Dict κ α) (k : κ) (v : α)
    (h : k ∈ d.map Prod.fst) : (dictSet d k v).map Prod.fst = d.map Prod.fst := by
  induction d with
  | nil => simp at h
  | cons e rest ih =>
    obtain ⟨k', v'⟩ := e
    by_cases hk : k' = k
    · simp [dictSet, hk]
    · have hrest : k ∈ rest.map Prod.fst := by
        simp only [List.map_cons, List.mem_cons] at h
        rcases h with h | h
        · exact absurd h.symm hk
        · exact h
      simp only [dictSet, if_neg hk, List.map_cons, ih hrest]

theorem dictGet_dictSet {κ α : Type} [DecidableEq κ] (d : Dict κ α) (k k' : κ) (v : α) :
    dictGet (dictSet d k v) k' = if k = k' then some v else dictGet d k' := by
  induction d with
  | nil => simp [dictSet, dictGet]
  | cons e rest ih =>
    obtain ⟨k0, v0⟩ := e
    by_cases h0 : k0 = k
    · subst h0
      by_cases h1 : k0 = k' <;> simp [dictSet, dictGet, h1]
    · by_cases h1 : k0 = k'
      · subst h1
        have h2 : ¬ k = k0 := fun e => h0 e.symm
        simp [dictSet, dictGet, h0, h2]
      · simp [dictSet, dictGet, h0, h1, ih]

theorem dictModify_keys {κ α : Type} [DecidableEq κ] (d : Dict κ α) (k : κ) (f : α → α) :
    (dictModify d k f).map Prod.fst = d.map Prod.fst := by
  induction d with
  | nil => rfl
  | cons e rest ih =>
    obtain ⟨k', v⟩ := e
    by_cases h : k' = k <;> simp [dictModify, h, ih]

theorem dictGet_dictModify {κ α : Type} [DecidableEq κ] (d : Dict κ α) (k k' : κ)
    (f : α → α) :
    dictGet (dictModify d k f) k' = if k = k' then (dictGet d k').map f else dictGet d k' := by
  induction d with
  | nil => simp [dictModify, dictGet]
  | cons e rest ih =>
    obtain ⟨k0, v0⟩ := e
    by_cases h0 : k0 = k
    · subst h0
      by_cases h1 : k0 = k' <;> simp [dictModify, dictGet, h1]
    · by_cases h1 : k0 = k'
      · subst h1
        have h2 : ¬ k = k0 := fun e => h0 e.symm
        simp [dictModify, dictGet, h0, h2]
      · simp [dictModify, dictGet, h0, h1, ih]

/-! ## Customers by category -/

example : (updateCustomerPerformanceReport id mixedCustomers sampleProducts).map
    (fun e => (e.1, e.2.count)) = [("Regular", 2), ("VIP", 1), ("Corporate", 1)] := by decide

/-- One step of the first loop adds the customer's category to the keys when
it is new, unless it names an inherited member. -/
theorem countCategory_keys (stats : Dict String CategoryStat) (c : Customer)
    (hc : effectiveCategory c ∉ objectPrototypeKeys) :
    (countCategory stats c).map Prod.fst =
      if effectiveCategory c ∈ stats.map Prod.fst then stats.map Prod.fst
      else stats.map Prod.fst ++ [effectiveCategory c] := by
  unfold countCategory
  dsimp only
  by_cases h : effectiveCategory c ∈ stats.map Prod.fst
  · have hget : dictGet stats (effectiveCategory c) ≠ none :=
      fun e => (dictGet_eq_none_iff _ _).mp e h
    rw [if_pos h]
    cases hg : dictGet stats (effectiveCategory c) with
    | none => exact absurd hg hget
    | some st => exact dictModify_keys _ _ _
  · have hget : dictGet stats (effectiveCategory c) = none := (dictGet_eq_none_iff _ _).mpr h
    rw [if_neg h, hget]
    simp only [if_neg hc, dictModify_keys]
    exact dictSet_keys_of_not_mem _ _ _ h

theorem countCategory_nodup (stats : Dict String CategoryStat) (c : Customer)
    (hc : effectiveCategory c ∉ objectPrototypeKeys)
    (h : (stats.map Prod.fst).Nodup) : ((countCategory stats c).map Prod.fst).Nodup := by
  rw [countCategory_keys stats c hc]
  split_ifs with hmem
  · exact h
  · rw [List.nodup_append]
    refine ⟨h, List.nodup_singleton _, ?_⟩
    intro a ha hb
    rw [List.mem_singleton] at hb
    exact hmem (hb ▸ ha)

theorem countCategory_get (stats : Dict String CategoryStat) (c : Customer) (k : String)
    (hc : effectiveCategory c ∉ objectPrototypeKeys) :
    ((dictGet (countCategory stats c) k).map CategoryStat.count).getD 0 =
      ((dictGet stats k).map CategoryStat.count).getD 0 +
        (if effectiveCategory c = k then 1 else 0) := by
  unfold countCategory
  dsimp only
  cases hg : dictGet stats (effectiveCategory c) with
  | none =>
    simp only [if_neg hc]
    rw [dictGet_dictModify, dictGet_dictSet]
    by_cases hk : effectiveCategory c = k
    · subst hk
      simp [hg]
    · simp [hk]
  | some st =>
    dsimp only
    rw [dictGet_dictModify]
    by_cases hk : effectiveCategory c = k
    · subst hk
      simp [hg]
    · simp [hk]

theorem dictModify_count_sum (d : Dict String CategoryStat) (k : String)
    (h : k ∈ d.map Prod.fst) :
    ((dictModify d k (fun st => { st with count := st.count + 1 })).map
      (fun e => e.2.count)).sum = (d.map (fun e => e.2.count)).sum + 1 := by
  induction d with
  | nil => simp at h
  | cons e rest ih =>
    obtain ⟨k', v⟩ := e
    by_cases hk : k' = k
    · simp [dictModify, hk]
      omega
    · have hrest : k ∈ rest.map Prod.fst := by
        simp only [List.map_cons, List.mem_cons] at h
        rcases h with h | h
        · exact absurd h.symm hk
        · exact h
      simp only [dictModify, if_neg hk, List.map_cons, List.sum_cons, ih hrest]
      omega

theorem dictSet_count_sum (d : Dict String CategoryStat) (k : String) (v : CategoryStat)
    (h : k ∉ d.map Prod.fst) :
    ((dictSet d k v).map (fun e => e.2.count)).sum =
      (d.map (fun e => e.2.count)).sum + v.count := by
  induction d with
  | nil => simp [dictSet]
  | cons e rest ih =>
    obtain ⟨k', v'⟩ := e
    simp only [List.map_cons, List.mem_cons, not_or] at h
    have hne : ¬ k' = k := fun e => h.1 e.symm
    simp only [dictSet, if_neg hne, List.map_cons, List.sum_cons, ih h.2]
    omega

theorem countCategory_count_sum (stats : Dict String CategoryStat) (c : Customer)
    (hc : effectiveCategory c ∉ objectPrototypeKeys) :
    ((countCategory stats c).map (fun e => e.2.count)).sum =
      (stats.map (fun e => e.2.count)).sum + 1 := by
  unfold countCategory
  dsimp only
  by_cases h : effectiveCategory c ∈ stats.map Prod.fst
  · have hget : dictGet stats (effectiveCategory c) ≠ none :=
      fun e => (dictGet_eq_none_iff _ _).mp e h
    cases hg : dictGet stats (effectiveCategory c) with
    | none => exact absurd hg hget
    | some st => exact dictModify_count_sum stats _ h
  · have hget : dictGet stats (effectiveCategory c) = none := (dictGet_eq_none_iff _ _).mpr h
    rw [hget]
    simp only [if_neg hc]
    have hmem : effectiveCategory c ∈
        (dictSet stats (effectiveCategory c) { count := 0, revenue := 0, avgValue := 0 }).map
          Prod.fst := by
      rw [dictSet_keys_of_not_mem _ _ _ h]
      simp
    rw [dictModify_count_sum _ _ hmem, dictSet_count_sum _ _ _ h]
    rfl

/-- What the first loop of the report leaves in `categoryStats`, started from
any dictionary with distinct keys, when no customer's category names an
inherited member. -/
theorem foldl_countCategory (customers : List Customer) (stats : Dict String CategoryStat)
    (hcs : ∀ c ∈ customers, effectiveCategory c ∉ objectPrototypeKeys)
    (h : (stats.map Prod.fst).Nodup) :
    ((customers.foldl countCategory stats).map Prod.fst).Nodup ∧
    ((customers.foldl countCategory stats).map (fun e => e.2.count)).sum =
      (stats.map (fun e => e.2.count)).sum + customers.length ∧
    (∀ k, k ∈ (customers.foldl countCategory stats).map Prod.fst ↔
      k ∈ stats.map Prod.fst ∨ ∃ c ∈ customers, effectiveCategory c = k) ∧
    (∀ k, ((dictGet (customers.foldl countCategory stats) k).map CategoryStat.count).getD 0 =
      ((dictGet stats k).map CategoryStat.count).getD 0 +
        customers.countP (fun c => decide (effectiveCategory c = k))) := by
  induction customers generalizing stats with
  | nil => simpa using h
  | cons c cs ih =>
    have hc : effectiveCategory c ∉ objectPrototypeKeys := hcs c (List.mem_cons_self _ _)
    obtain ⟨h1, h2, h3, h4⟩ := ih (countCategory stats c)
      (fun c' hc' => hcs c' (List.mem_cons_of_mem _ hc')) (countCategory_nodup stats c hc h)
    simp only [List.foldl_cons]
    refine ⟨h1, ?_, ?_, ?_⟩
    · rw [h2, countCategory_count_sum stats c hc, List.length_cons]
      omega
    · intro k
      rw [h3 k, countCategory_keys stats c hc]
      constructor
      · rintro (hk | ⟨c', hc', he⟩)
        · split_ifs at hk with hmem
          · exact Or.inl hk
          · rcases List.mem_append.mp hk with hk | hk
            · exact Or.inl hk
            · rw [List.mem_singleton] at hk
              exact Or.inr ⟨c, List.mem_cons_self _ _, hk.symm⟩
        · exact Or.inr ⟨c', List.mem_cons_of_mem _ hc', he⟩
      · rintro (hk | ⟨c', hc', he⟩)
        · left
          split_ifs with hmem
          · exact hk
          · exact List.mem_append_left _ hk
        · rcases List.mem_cons.mp hc' with rfl | hc'
          · left
            split_ifs with hmem
            · exact he ▸ hmem
            · exact List.mem_append_right _ (by simp [he])
          · exact Or.inr ⟨c', hc', he⟩
    · intro k
      rw [h4 k, countCategory_get stats c k hc, List.countP_cons]
      by_cases hk : effectiveCategory c = k
      · simp [hk]
        omega
      · simp [hk]

theorem report_keys (rnd : Rat → Rat) (customers : List Customer) (products : Products) :
    (updateCustomerPerformanceReport rnd customers products).map Prod.fst =
      (customers.foldl countCategory []).map Prod.fst := by
  simp [updateCustomerPerformanceReport, List.map_map, Function.comp_def]

theorem report_counts (rnd : Rat → Rat) (customers : List Customer) (products : Products) :
    (updateCustomerPerformanceReport rnd customers products).map (fun e => e.2.count) =
      (customers.foldl countCategory []).map (fun e => e.2.count) := by
  simp [updateCustomerPerformanceReport, List.map_map, Function.comp_def]

theorem sum_count_mul (d : Dict String CategoryStat) (r : Rat) :
    (d.map (fun e => (e.2.count : Rat) * r)).sum =
      ((d.map (fun e => e.2.count)).sum : Nat) * r := by
  induction d with
  | nil => simp
  | cons e rest ih =>
    simp only [List.map_cons, List.sum_cons, ih]
    push_cast
    ring

/-- The counts of the report when every effective category is an ordinary
name: they sum to the number of customers, the categories listed are pairwise
different and are exactly those that occur, and each count is the number of
customers in that category. -/
theorem categoryCounts_of_ordinary (rnd : Rat → Rat) (customers : List Customer)
    (products : Products)
    (hcs : ∀ c ∈ customers, effectiveCategory c ∉ objectPrototypeKeys) :
    ((updateCustomerPerformanceReport rnd customers products).map (fun e => e.2.count)).sum =
      customers.length ∧
    ((updateCustomerPerformanceReport rnd customers products).map Prod.fst).Nodup ∧
    (∀ k, k ∈ (updateCustomerPerformanceReport rnd customers products).map Prod.fst ↔
      ∃ c ∈ customers, effectiveCategory c = k) ∧
    (∀ e ∈ updateCustomerPerformanceReport rnd customers products,
      e.2.count = customers.countP (fun c => decide (effectiveCategory c = e.1))) := by
  obtain ⟨h1, h2, h3, h4⟩ := foldl_countCategory customers [] hcs (by simp)
  refine ⟨?_, ?_, ?_, ?_⟩
  · rw [report_counts, h2]
    simp
  · rw [report_keys]
    exact h1
  · intro k
    rw [report_keys, h3 k]
    simp
  · intro e he
    unfold updateCustomerPerformanceReport at he
    obtain ⟨e0, he0, rfl⟩ := List.mem_map.mp he
    have hget := dictGet_of_mem _ e0.1 e0.2 h1 he0
    have := h4 e0.1
    rw [hget] at this
    simpa [dictGet] using this

/-- C14 at its failing input: a list of one customer whose category is
`toString`.  The customer's effective category is `toString`, but the report
lists no category at all, so the counts sum to 0 and not to the number of
customers, 1. -/
theorem categoryCounts_inherited_name :
    inheritedNameCustomers.length = 1 ∧
    inheritedNameCustomers.countP (fun c => decide (effectiveCategory c = "toString")) = 1 ∧
    updateCustomerPerformanceReport binary64 inheritedNameCustomers sampleProducts64 = [] ∧
    ((updateCustomerPerformanceReport binary64 inheritedNameCustomers sampleProducts64).map
      (fun e => e.2.count)).sum = 0 := by
  refine ⟨by decide, by decide, ?_, ?_⟩
  · simp only [updateCustomerPerformanceReport, inheritedNameCustomers, List.foldl_cons,
      List.foldl_nil]
    have h : countCategory [] { customerData annForm 1000 1000 with category := "toString" } =
        [] := by decide
    rw [h]
    rfl
  · simp only [updateCustomerPerformanceReport, inheritedNameCustomers, List.foldl_cons,
      List.foldl_nil]
    have h : countCategory [] { customerData annForm 1000 1000 with category := "toString" } =
        [] := by decide
    rw [h]
    rfl

/-- C15, as stated, fails: with no customers there are no categories, so the
revenue shares sum to 0 while the total revenue of the sample counters is
749.75.  The same happens for the one customer whose category is `toString`,
which the report does not list.  In double precision the shares of three
customers in three categories, with nine products sold at 0.1, do not add up to
the revenue either. -/
theorem revenueShares_empty_counterexample :
    updateCustomerPerformanceReport id [] sampleProducts = [] ∧
    updateCustomerPerformanceReport binary64 [] sampleProducts64 = [] ∧
    ((updateCustomerPerformanceReport id [] sampleProducts).map
      (fun e => e.2.revenue)).sum = 0 ∧
    (sampleProducts.sold : Rat) * sampleProducts.price = 2999 / 4 ∧
    ((updateCustomerPerformanceReport id [] sampleProducts).map
      (fun e => e.2.revenue)).sum ≠ (sampleProducts.sold : Rat) * sampleProducts.price ∧
    inheritedNameCustomers ≠ [] ∧
    ((updateCustomerPerformanceReport id inheritedNameCustomers sampleProducts).map
      (fun e => e.2.revenue)).sum = 0 ∧
    ((updateCustomerPerformanceReport binary64 threeCustomers nineSold).map
      (fun e => e.2.revenue)).sum ≠ binary64 ((nineSold.sold : Rat) * nineSold.price) := by
  have h : countCategory [] { customerData annForm 1000 1000 with category := "toString" } =
      [] := by decide
  refine ⟨rfl, rfl, rfl, by decide!, by decide!, by decide, ?_, by decide!⟩
  simp only [updateCustomerPerformanceReport, inheritedNameCustomers, List.foldl_cons,
    List.foldl_nil, h]
  rfl

/-- C15, amended: for every non-empty customer list in which no effective
category is the name of an inherited object member, and every product record,
the per-category revenue shares categoryCount × (sold × price / customerCount),
computed in exact arithmetic, sum to the total revenue sold × price. -/
theorem revenueShares_sum (customers : List Customer) (products : Products)
    (h : customers ≠ [])
    (hcs : ∀ c ∈ customers, effectiveCategory c ∉ objectPrototypeKeys) :
    ((updateCustomerPerformanceReport id customers products).map
      (fun e => e.2.revenue)).sum = (products.sold : Rat) * products.price ∧
    (∀ e ∈ updateCustomerPerformanceReport id customers products,
      e.2.revenue =
        (e.2.count : Rat) * ((products.sold : Rat) * products.price / customers.length)) := by
  obtain ⟨_, h2, _, _⟩ := foldl_countCategory customers [] hcs (by simp)
  have hlen : (customers.length : Rat) ≠ 0 := by
    have : customers.length ≠ 0 := fun e => h (List.length_eq_zero.mp e)
    exact_mod_cast this
  constructor
  · unfold updateCustomerPerformanceReport
    simp only [List.map_map, Function.comp_def, id]
    rw [sum_count_mul, h2]
    simp only [List.map_nil, List.sum_nil, zero_add]
    field_simp
  · intro e he
    unfold updateCustomerPerformanceReport at he
    obtain ⟨e0, _, rfl⟩ := List.mem_map.mp he
    rfl

/-- Witness for C15: the four mixed customers and the sample counters. -/
theorem revenueShares_sum_witness :
    mixedCustomers ≠ [] ∧
    (∀ c ∈ mixedCustomers, effectiveCategory c ∉ objectPrototypeKeys) ∧
    ((updateCustomerPerformanceReport id mixedCustomers sampleProducts).map
      (fun e => e.2.revenue)).sum = (sampleProducts.sold : Rat) * sampleProducts.price :=
  ⟨by decide, by decide,
    (revenueShares_sum mixedCustomers sampleProducts (by decide) (by decide)).1⟩

/-! ## Monthly series -/

example : utcYearMonth 1710460800000 = (2024, 2) := by decide
example : utcYearMonth 1709164800000 = (2024, 1) := by decide
example : utcYearMonth 1696032000000 = (2023, 8) := by decide
example : utcYearMonth 37843200000 = (1971, 2) := by decide
example : utcYearMonth 3193603200000 = (2071, 2) := by decide
example : utcYearMonth 0 = (1970, 0) := by decide
example : normMonth 2024 (2 - 5) = (2023, 9) := by decide
example : calculateMonthlyGrowth utcYearMonth datedCustomers 1710460800000 =
    [(⟨9, 23⟩, 1), (⟨10, 23⟩, 0), (⟨11, 23⟩, 0), (⟨0, 24⟩, 1), (⟨1, 24⟩, 1), (⟨2, 24⟩, 1)] := by
  decide

theorem dictSet_of_not_mem {κ α : Type} [DecidableEq κ] (d : Dict κ α) (k : κ) (v : α)
    (h : k ∉ d.map Prod.fst) : dictSet d k v = d ++ [(k, v)] := by
  induction d with
  | nil => rfl
  | cons e rest ih =>
    obtain ⟨k', v'⟩ := e
    simp only [List.map_cons, List.mem_cons, not_or] at h
    have hne : ¬ k' = k := fun e => h.1 e.symm
    simp only [dictSet, if_neg hne, List.cons_append, ih h.2]

/-- Filling an object with pairwise different keys lists them in the order of
the writes. -/
theorem foldl_dictSet_fresh {ι κ α : Type} [DecidableEq κ] (key : ι → κ) (val : ι → α)
    (is : List ι) (acc : Dict κ α) (hnd : (is.map key).Nodup)
    (hacc : ∀ i ∈ is, key i ∉ acc.map Prod.fst) :
    is.foldl (fun d i => dictSet d (key i) (val i)) acc =
      acc ++ is.map (fun i => (key i, val i)) := by
  induction is generalizing acc with
  | nil => simp
  | cons i rest ih =>
    simp only [List.map_cons, List.nodup_cons] at hnd
    have hi : key i ∉ acc.map Prod.fst := hacc i (List.mem_cons_self _ _)
    simp only [List.foldl_cons, dictSet_of_not_mem acc (key i) (val i) hi]
    rw [ih (acc ++ [(key i, val i)]) hnd.2]
    · simp
    · intro j hj
      simp only [List.map_append, List.map_cons, List.map_nil, List.mem_append,
        List.mem_singleton, not_or]
      refine ⟨hacc j (List.mem_cons_of_mem _ hj), ?_⟩
      intro e
      exact hnd.1 (e ▸ List.mem_map_of_mem key hj)

theorem dictModify_eq_map {κ α : Type} [DecidableEq κ] (d : Dict κ α) (k : κ) (f : α → α)
    (hnd : (d.map Prod.fst).Nodup) :
    dictModify d k f = d.map (fun e => if e.1 = k then (e.1, f e.2) else e) := by
  induction d with
  | nil => rfl
  | cons e rest ih =>
    obtain ⟨k', v⟩ := e
    simp only [List.map_cons, List.nodup_cons] at hnd
    by_cases hk : k' = k
    · subst hk
      simp only [dictModify, if_true, List.map_cons]
      congr 1
      symm
      calc rest.map (fun e => if e.1 = k' then (e.1, f e.2) else e)
          = rest.map id := by
            apply List.map_congr_left
            intro e he
            have : e.1 ≠ k' := fun h => hnd.1 (h ▸ List.mem_map_of_mem Prod.fst he)
            simp [this]
        _ = rest := List.map_id _
    · simp only [dictModify, if_neg hk, List.map_cons, ih hnd.2]

/-- The six labels of `calculateMonthlyGrowth` and `generateMonthlySalesData`
are pairwise different. -/
theorem monthKeys_nodup (y m : Int) :
    (([5, 4, 3, 2, 1, 0] : List Nat).map
      (fun (i : Nat) => monthKey (normMonth y (m - (i : Int))))).Nodup := by
  simp only [List.map_cons, List.map_nil, List.nodup_cons, List.mem_cons, List.mem_singleton,
    List.not_mem_nil, monthKey, normMonth, MonthKey.mk.injEq, not_or, not_and, or_false,
    List.nodup_nil, and_true, not_false_eq_true]
  omega

/-- The second loop of `calculateMonthlyGrowth`: every listed label gains the
number of customers whose date carries that label. -/
theorem foldl_monthly (key : Customer → MonthKey) (customers : List Customer)
    (d : Dict MonthKey Nat) (hnd : (d.map Prod.fst).Nodup) :
    customers.foldl
      (fun d customer =>
        match dictGet d (key customer) with
        | some _ => dictModify d (key customer) (fun n => n + 1)
        | none => d) d =
      d.map (fun e => (e.1, e.2 + customers.countP (fun c => decide (key c = e.1)))) := by
  induction customers generalizing d with
  | nil => simp
  | cons c cs ih =>
    have hstep : (match dictGet d (key c) with
        | some _ => dictModify d (key c) (fun n => n + 1)
        | none => d) = d.map (fun e => (e.1, e.2 + if key c = e.1 then 1 else 0)) := by
      cases hg : dictGet d (key c) with
      | none =>
        have hk : key c ∉ d.map Prod.fst := (dictGet_eq_none_iff _ _).mp hg
        symm
        calc d.map (fun e => (e.1, e.2 + if key c = e.1 then 1 else 0))
            = d.map id := by
              apply List.map_congr_left
              intro e he
              have : key c ≠ e.1 := fun h => hk (h ▸ List.mem_map_of_mem Prod.fst he)
              simp [this]
          _ = d := List.map_id _
      | some n =>
        dsimp only
        rw [dictModify_eq_map d (key c) _ hnd]
        apply List.map_congr_left
        intro e _
        by_cases h : e.1 = key c
        · simp [h]
        · have h' : ¬ key c = e.1 := fun x => h x.symm
          simp [h, h']
    simp only [List.foldl_cons]
    rw [hstep, ih]
    · rw [List.map_map]
      apply List.map_congr_left
      intro e _
      simp only [Function.comp_def, List.countP_cons]
      by_cases h : key c = e.1
      · simp [h]
        omega
      · simp [h]
    · simpa [List.map_map, Function.comp_def] using hnd

/-- The value of `calculateMonthlyGrowth`: six entries, oldest month first, each
counting the customers whose date carries the entry's label. -/
theorem calculateMonthlyGrowth_eq (localYearMonth : Nat → Int × Nat)
    (customers : List Customer) (now : Nat) :
    calculateMonthlyGrowth localYearMonth customers now =
      ([5, 4, 3, 2, 1, 0] : List Nat).map (fun (i : Nat) =>
        (monthKey (normMonth (localYearMonth now).1 (((localYearMonth now).2 : Int) - (i : Int))),
          customers.countP (fun c => decide (monthKey (localYearMonth c.dateAdded) =
            monthKey (normMonth (localYearMonth now).1
              (((localYearMonth now).2 : Int) - (i : Int))))))) := by
  have hnd := monthKeys_nodup (localYearMonth now).1 ((localYearMonth now).2 : Int)
  have hinit := foldl_dictSet_fresh
    (fun i : Nat =>
      monthKey (normMonth (localYearMonth now).1 (((localYearMonth now).2 : Int) - (i : Int))))
    (fun _ => (0 : Nat)) [5, 4, 3, 2, 1, 0] [] hnd (by simp)
  unfold calculateMonthlyGrowth
  dsimp only
  rw [hinit, List.nil_append,
    foldl_monthly (fun c => monthKey (localYearMonth c.dateAdded)) customers _
      (by simpa [List.map_map, Function.comp_def] using hnd)]
  simp [List.map_map, Function.comp_def]

theorem monthKey_eq_iff (a b : Int × Nat) (h1 : a.1 < b.1 + 100) (h2 : b.1 < a.1 + 100) :
    monthKey a = monthKey b ↔ a = b := by
  constructor
  · intro h
    simp only [monthKey, MonthKey.mk.injEq] at h
    obtain ⟨hm, hy⟩ := h
    have hy' : a.1 = b.1 := by omega
    exact Prod.ext hy' hm
  · intro h
    rw [h]

/-- C16 at its failing input: seen from March 2071 (UTC), with one customer
added in March 1971, `calculateMonthlyGrowth` returns the six entries of
October 2070 to March 2071 and gives the entry of March 2071 the value 1,
although no customer was added in that calendar month: the customer's label
`Mar 71` is also the key of that entry. -/
theorem monthlyGrowth_century_counterexample :
    utcYearMonth 3193603200000 = (2071, 2) ∧
    oldCustomers.map (fun c => utcYearMonth c.dateAdded) = [(1971, 2)] ∧
    calculateMonthlyGrowth utcYearMonth oldCustomers 3193603200000 =
      [(⟨9, 70⟩, 0), (⟨10, 70⟩, 0), (⟨11, 70⟩, 0), (⟨0, 71⟩, 0), (⟨1, 71⟩, 0), (⟨2, 71⟩, 1)] ∧
    oldCustomers.countP (fun c => decide (utcYearMonth c.dateAdded = (2071, 2))) = 0 := by
  decide

/-- Away from the failing inputs the monthly counts are right: when every
customer's year is less than 100 years away from the years of the six months,
`calculateMonthlyGrowth` returns exactly six entries, one for each calendar
month from five months before the current month through the current month,
oldest first, and the value of each entry is the number of customers whose
`dateAdded` falls in that calendar month. -/
theorem calculateMonthlyGrowth_within_century (localYearMonth : Nat → Int × Nat)
    (customers : List Customer) (now : Nat)
    (h : ∀ c ∈ customers, ∀ i : Nat, i ≤ 5 →
        (localYearMonth c.dateAdded).1 <
          (normMonth (localYearMonth now).1 (((localYearMonth now).2 : Int) - (i : Int))).1
            + 100 ∧
        (normMonth (localYearMonth now).1 (((localYearMonth now).2 : Int) - (i : Int))).1 <
          (localYearMonth c.dateAdded).1 + 100) :
    (calculateMonthlyGrowth localYearMonth customers now).length = 6 ∧
    (calculateMonthlyGrowth localYearMonth customers now).map Prod.fst =
      ([5, 4, 3, 2, 1, 0] : List Nat).map (fun (i : Nat) =>
        monthKey (normMonth (localYearMonth now).1
          (((localYearMonth now).2 : Int) - (i : Int)))) ∧
    (calculateMonthlyGrowth localYearMonth customers now).map Prod.snd =
      ([5, 4, 3, 2, 1, 0] : List Nat).map (fun (i : Nat) =>
        customers.countP (fun c => decide (localYearMonth c.dateAdded =
          normMonth (localYearMonth now).1
            (((localYearMonth now).2 : Int) - (i : Int))))) := by
  rw [calculateMonthlyGrowth_eq]
  refine ⟨by simp, by simp [List.map_map, Function.comp_def], ?_⟩
  · rw [List.map_map]
    apply List.map_congr_left
    intro i hi
    have hi5 : i ≤ 5 := by
      simp only [List.mem_cons, List.mem_singleton, List.not_mem_nil, or_false] at hi
      omega
    simp only [Function.comp_def]
    apply List.countP_congr
    intro c hc
    simp only [decide_eq_true_eq]
    exact monthKey_eq_iff _ _ (h c hc i hi5).1 (h c hc i hi5).2

/-- Five customers added between September 2023 and March 2024, seen from
15 March 2024 (UTC): the monthly counts are 1, 0, 0, 1, 1, 1. -/
theorem calculateMonthlyGrowth_within_century_witness :
    (∀ c ∈ datedCustomers, ∀ i : Nat, i ≤ 5 →
        (utcYearMonth c.dateAdded).1 <
          (normMonth (utcYearMonth 1710460800000).1
            (((utcYearMonth 1710460800000).2 : Int) - (i : Int))).1 + 100 ∧
        (normMonth (utcYearMonth 1710460800000).1
            (((utcYearMonth 1710460800000).2 : Int) - (i : Int))).1 <
          (utcYearMonth c.dateAdded).1 + 100) ∧
    (calculateMonthlyGrowth utcYearMonth datedCustomers 1710460800000).map Prod.snd =
      ([5, 4, 3, 2, 1, 0] : List Nat).map (fun (i : Nat) =>
        datedCustomers.countP (fun c => decide (utcYearMonth c.dateAdded =
          normMonth (utcYearMonth 1710460800000).1
            (((utcYearMonth 1710460800000).2 : Int) - (i : Int))))) ∧
    (calculateMonthlyGrowth utcYearMonth datedCustomers 1710460800000).map Prod.snd =
      [1, 0, 0, 1, 1, 1] :=
  ⟨by decide,
    (calculateMonthlyGrowth_within_century utcYearMonth datedCustomers 1710460800000
      (by decide)).2.2,
    by decide⟩

/-! ## Synthetic monthly sales -/

/-- The value of `generateMonthlySalesData`: six entries, oldest month first,
the `k`-th from the `k`-th random draw. -/
theorem generateMonthlySalesData_eq (rnd : Rat → Rat) (products : Products) (ym : Int × Nat)
    (random : Nat → Rat) :
    generateMonthlySalesData rnd products ym random =
      ([5, 4, 3, 2, 1, 0] : List Nat).map (fun (i : Nat) =>
        (monthKey (normMonth ym.1 ((ym.2 : Int) - (i : Int))),
          salesFigure rnd products (random (5 - i)))) := by
  have h := foldl_dictSet_fresh
    (fun i : Nat => monthKey (normMonth ym.1 ((ym.2 : Int) - (i : Int))))
    (fun i : Nat => salesFigure rnd products (random (5 - i))) [5, 4, 3, 2, 1, 0] []
    (monthKeys_nodup ym.1 (ym.2 : Int)) (by simp)
  unfold generateMonthlySalesData
  rw [h, List.nil_append]

/-- Under a monotone rounding that fixes 0, a larger draw gives a larger
figure. -/
theorem salesFigure_mono (rnd : Rat → Rat) (hmono : Monotone rnd) (h0 : rnd 0 = 0)
    (products : Products) (hs : 0 ≤ products.sold) (hp : 0 ≤ products.price)
    (r r' : Rat) (hr : r ≤ r') :
    salesFigure rnd products r ≤ salesFigure rnd products r' := by
  have hbase : 0 ≤ rnd ((products.sold : Rat) / 6) := by
    have hs' : (0 : Rat) ≤ (products.sold : Rat) / 6 := by
      have : (0 : Rat) ≤ (products.sold : Rat) := by exact_mod_cast hs
      positivity
    calc (0 : Rat) = rnd 0 := h0.symm
      _ ≤ rnd ((products.sold : Rat) / 6) := hmono hs'
  have hc : 0 ≤ rnd (2 / 5) := by
    calc (0 : Rat) = rnd 0 := h0.symm
      _ ≤ rnd (2 / 5) := hmono (by norm_num)
  unfold salesFigure
  dsimp only
  apply max_le_max (le_refl 0)
  apply hmono
  apply mul_le_mul_of_nonneg_right _ hp
  apply hmono
  apply mul_le_mul_of_nonneg_left _ hbase
  apply hmono
  apply add_le_add_left
  apply hmono
  apply mul_le_mul_of_nonneg_right _ hc
  apply hmono
  linarith

/-- In exact arithmetic a draw in `[0, 1)` gives a figure between 0.8 and 1.2
times sold × price / 6. -/
theorem salesFigure_exact_bounds (products : Products) (hs : 0 ≤ products.sold)
    (hp : 0 ≤ products.price) (r : Rat) (hr0 : 0 ≤ r) (hr1 : r < 1) :
    4 / 5 * ((products.sold : Rat) * products.price / 6) ≤ salesFigure id products r ∧
    salesFigure id products r ≤ 6 / 5 * ((products.sold : Rat) * products.price / 6) := by
  have hs' : (0 : Rat) ≤ (products.sold : Rat) := by exact_mod_cast hs
  have hB : 0 ≤ (products.sold : Rat) * products.price / 6 := by positivity
  have hval : (products.sold : Rat) / 6 * (1 + (r - 1 / 2) * (2 / 5)) * products.price =
      ((products.sold : Rat) * products.price / 6) * (1 + (r - 1 / 2) * (2 / 5)) := by ring
  have ht0 : 4 / 5 ≤ 1 + (r - 1 / 2) * (2 / 5) := by linarith
  have ht1 : 1 + (r - 1 / 2) * (2 / 5) ≤ 6 / 5 := by linarith
  have hlo := mul_le_mul_of_nonneg_left ht0 hB
  have hhi := mul_le_mul_of_nonneg_left ht1 hB
  unfold salesFigure
  simp only [id]
  rw [hval]
  constructor
  · exact le_max_of_le_right (by linarith)
  · exact max_le (by linarith) (by linarith)

example : binary64 (1 / 6) = 6004799503160661 / 36028797018963968 := by decide!
example : salesFigure binary64 oneSold 0 = 6004799503160661 / 18014398509481984 := by decide!

/-- C17, as stated, fails in double precision: with one product sold at the
price 2.5 and every draw equal to 0, each of the six monthly figures is the
double just below 1/3, which is less than 0.8 × (sold × price / 6) = 1/3, both
when that bound is taken exactly and when it is itself evaluated in double
precision. -/
theorem monthlySales_rounding_counterexample :
    (0 : Int) ≤ oneSold.sold ∧ (0 : Rat) ≤ oneSold.price ∧
    (generateMonthlySalesData binary64 oneSold (2024, 2) (fun _ => 0)).map Prod.snd =
      List.replicate 6 (6004799503160661 / 18014398509481984) ∧
    (6004799503160661 / 18014398509481984 : Rat) <
      4 / 5 * ((oneSold.sold : Rat) * oneSold.price / 6) ∧
    (6004799503160661 / 18014398509481984 : Rat) <
      binary64 (binary64 (4 / 5) *
        binary64 (binary64 ((oneSold.sold : Rat) * oneSold.price) / 6)) := by
  refine ⟨by decide, by decide!, ?_, by decide!, by decide!⟩
  rw [generateMonthlySalesData_eq]
  have h : salesFigure binary64 oneSold 0 = 6004799503160661 / 18014398509481984 := by decide!
  simp only [List.map_cons, List.map_nil, h]
  rfl

/-- C17, amended: for every product record with sold ≥ 0 and price ≥ 0 and
every six draws in [0, 1), `generateMonthlySalesData` returns six monthly
figures.  Under every rounding that is monotone and fixes 0, each figure lies
between the figure for the draw 0 (jitter −20%) and the figure for the draw 1
(jitter +20%), evaluated in the same arithmetic.  In exact arithmetic each
figure lies between 0.8 and 1.2 times sold × price / 6, and their total between
0.8 and 1.2 times sold × price. -/
theorem generateMonthlySalesData_spec (rnd : Rat → Rat) (products : Products) (ym : Int × Nat)
    (random : Nat → Rat) (hs : 0 ≤ products.sold) (hp : 0 ≤ products.price)
    (hr : ∀ k, k < 6 → 0 ≤ random k ∧ random k < 1) :
    (generateMonthlySalesData rnd products ym random).length = 6 ∧
    (Monotone rnd → rnd 0 = 0 →
      ∀ e ∈ generateMonthlySalesData rnd products ym random,
        salesFigure rnd products 0 ≤ e.2 ∧ e.2 ≤ salesFigure rnd products 1) ∧
    (∀ e ∈ generateMonthlySalesData id products ym random,
      4 / 5 * ((products.sold : Rat) * products.price / 6) ≤ e.2 ∧
      e.2 ≤ 6 / 5 * ((products.sold : Rat) * products.price / 6)) ∧
    4 / 5 * ((products.sold : Rat) * products.price) ≤
      ((generateMonthlySalesData id products ym random).map Prod.snd).sum ∧
    ((generateMonthlySalesData id products ym random).map Prod.snd).sum ≤
      6 / 5 * ((products.sold : Rat) * products.price) := by
  refine ⟨?_, ?_, ?_, ?_⟩
  · rw [generateMonthlySalesData_eq]
    simp
  · intro hmono h0 e he
    rw [generateMonthlySalesData_eq] at he
    obtain ⟨i, _, rfl⟩ := List.mem_map.mp he
    have hk : 5 - i < 6 := by omega
    exact ⟨salesFigure_mono rnd hmono h0 products hs hp 0 _ (hr _ hk).1,
      salesFigure_mono rnd hmono h0 products hs hp _ 1 (le_of_lt (hr _ hk).2)⟩
  · intro e he
    rw [generateMonthlySalesData_eq] at he
    obtain ⟨i, _, rfl⟩ := List.mem_map.mp he
    have hk : 5 - i < 6 := by omega
    exact salesFigure_exact_bounds products hs hp _ (hr _ hk).1 (hr _ hk).2
  · rw [generateMonthlySalesData_eq]
    have b0 := salesFigure_exact_bounds products hs hp _ (hr 0 (by omega)).1 (hr 0 (by omega)).2
    have b1 := salesFigure_exact_bounds products hs hp _ (hr 1 (by omega)).1 (hr 1 (by omega)).2
    have b2 := salesFigure_exact_bounds products hs hp _ (hr 2 (by omega)).1 (hr 2 (by omega)).2
    have b3 := salesFigure_exact_bounds products hs hp _ (hr 3 (by omega)).1 (hr 3 (by omega)).2
    have b4 := salesFigure_exact_bounds products hs hp _ (hr 4 (by omega)).1 (hr 4 (by omega)).2
    have b5 := salesFigure_exact_bounds products hs hp _ (hr 5 (by omega)).1 (hr 5 (by omega)).2
    simp only [List.map_cons, List.map_nil, List.sum_cons, List.sum_nil]
    norm_num
    constructor <;> linarith [b0.1, b0.2, b1.1, b1.2, b2.1, b2.2, b3.1, b3.2, b4.1, b4.2,
      b5.1, b5.2]

/-- Witness for C17: the sample counters in exact arithmetic, which is monotone
and fixes 0, with the draws 0, 1/6, 2/6, 3/6, 4/6 and 5/6. -/
theorem generateMonthlySalesData_spec_witness :
    (0 : Int) ≤ sampleProducts.sold ∧ (0 : Rat) ≤ sampleProducts.price ∧
    (∀ k : Nat, k < 6 → (0 : Rat) ≤ (k : Rat) / 6 ∧ (k : Rat) / 6 < 1) ∧
    Monotone (id : Rat → Rat) ∧ (id (0 : Rat) = 0) ∧
    (generateMonthlySalesData id sampleProducts (2024, 2) (fun k => (k : Rat) / 6)).length = 6 ∧
    (∀ e ∈ generateMonthlySalesData id sampleProducts (2024, 2) (fun k => (k : Rat) / 6),
      salesFigure id sampleProducts 0 ≤ e.2 ∧ e.2 ≤ salesFigure id sampleProducts 1) ∧
    4 / 5 * ((sampleProducts.sold : Rat) * sampleProducts.price) ≤
      ((generateMonthlySalesData id sampleProducts (2024, 2)
        (fun k => (k : Rat) / 6)).map Prod.snd).sum ∧
    ((generateMonthlySalesData id sampleProducts (2024, 2)
        (fun k => (k : Rat) / 6)).map Prod.snd).sum ≤
      6 / 5 * ((sampleProducts.sold : Rat) * sampleProducts.price) :=
  have hs : (0 : Int) ≤ sampleProducts.sold := by decide
  have hp : (0 : Rat) ≤ sampleProducts.price := by decide!
  have hr : ∀ k : Nat, k < 6 → (0 : Rat) ≤ (k : Rat) / 6 ∧ (k : Rat) / 6 < 1 := by
    intro k hk
    have h6 : (k : Rat) < 6 := by exact_mod_cast hk
    constructor
    · positivity
    · rw [div_lt_one (by norm_num)]
      exact h6
  ⟨hs, hp, hr, monotone_id, rfl,
    (generateMonthlySalesData_spec id sampleProducts (2024, 2) (fun k => (k : Rat) / 6)
      hs hp hr).1,
    (generateMonthlySalesData_spec id sampleProducts (2024, 2) (fun k => (k : Rat) / 6)
      hs hp hr).2.1 monotone_id rfl,
    (generateMonthlySalesData_spec id sampleProducts (2024, 2) (fun k => (k : Rat) / 6)
      hs hp hr).2.2.2⟩

/-! ## Import and export -/

theorem customer_ofJson_toJson (c : Customer) : Customer.ofJson c.toJson = some c := by
  obtain ⟨id, name, phone, address, email, category, notes, dateAdded, lastModified⟩ := c
  cases lastModified <;> rfl

theorem customersOfItems_toJson (cs : List Customer) :
    customersOfItems (cs.map Customer.toJson) = some cs := by
  induction cs with
  | nil => rfl
  | cons c rest ih => simp [customersOfItems, customer_ofJson_toJson, ih]

theorem customersOfJson_toJson (cs : List Customer) :
    customersOfJson (.arr (cs.map Customer.toJson)) = some cs :=
  customersOfItems_toJson cs

theorem products_ofJson_toJson (p : Products) : Products.ofJson p.toJson = some p := by
  obtain ⟨total, sold, price, capital⟩ := p
  simp [Products.toJson, Products.ofJson]

/-- The state `importData` leaves when both fields are truthy: the values are
assigned and persisted before anything is rendered. -/
theorem importData_of_truthy (s : RawState) (fields : List (String × Json)) (c p : Json)
    (hc : dictGet fields "customers" = some c) (hp : dictGet fields "products" = some p)
    (hct : c.truthy = true) (hpt : p.truthy = true) :
    (importData s (some (.obj fields))).customers = c ∧
    (importData s (some (.obj fields))).products = p ∧
    (importData s (some (.obj fields))).crm_customers = some c ∧
    (importData s (some (.obj fields))).crm_products = some p ∧
    (importData s (some (.obj fields))).messages = s.messages ++
      [if refreshThrows c p then
        { text := "Error reading file. Please ensure it's a valid JSON file.", type := .error }
      else { text := "Data imported successfully!", type := .success }] := by
  simp only [importData, Json.prop, hc, hp, hct, hpt, Bool.and_self, if_true, RawState.save]
  by_cases h : refreshThrows c p = true
  · simp [h, RawState.showMessage]
  · simp [h, RawState.showMessage]

/-- C18: for every import document in which the `customers` or the `products`
top-level field is not present, `importData` leaves the in-memory customers and
products and the persisted customers and products blobs exactly as they were,
and reports an error. -/
theorem importData_missing_field (s : RawState) (data : Json)
    (h : data.prop "customers" = none ∨ data.prop "products" = none) :
    (importData s (some data)).customers = s.customers ∧
    (importData s (some data)).products = s.products ∧
    (importData s (some data)).crm_customers = s.crm_customers ∧
    (importData s (some data)).crm_products = s.crm_products ∧
    ∃ text, (importData s (some data)).messages =
      s.messages ++ [{ text := text, type := .error }] := by
  cases data with
  | obj fields =>
    simp only [Json.prop] at h
    unfold importData
    simp only [Json.prop]
    rcases h with h | h
    · rw [h]
      exact ⟨rfl, rfl, rfl, rfl, _, rfl⟩
    · rw [h]
      cases dictGet fields "customers" <;> exact ⟨rfl, rfl, rfl, rfl, _, rfl⟩
  | null => exact ⟨rfl, rfl, rfl, rfl, _, rfl⟩
  | bool b => exact ⟨rfl, rfl, rfl, rfl, _, rfl⟩
  | num q => exact ⟨rfl, rfl, rfl, rfl, _, rfl⟩
  | str t => exact ⟨rfl, rfl, rfl, rfl, _, rfl⟩
  | isoDate t => exact ⟨rfl, rfl, rfl, rfl, _, rfl⟩
  | arr items => exact ⟨rfl, rfl, rfl, rfl, _, rfl⟩

/-- Witness for C18: a document with a `customers` array and no `products`
is read in over the collection of Ann and Bob. -/
theorem importData_missing_field_witness :
    customersOnlyDoc.prop "products" = none ∧
    (importData twoState.toRaw (some customersOnlyDoc)).customers = twoState.toRaw.customers ∧
    (importData twoState.toRaw (some customersOnlyDoc)).products = twoState.toRaw.products ∧
    (importData twoState.toRaw (some customersOnlyDoc)).crm_customers =
      twoState.toRaw.crm_customers ∧
    (importData twoState.toRaw (some customersOnlyDoc)).crm_products =
      twoState.toRaw.crm_products :=
  ⟨rfl,
    (importData_missing_field twoState.toRaw customersOnlyDoc (Or.inr rfl)).1,
    (importData_missing_field twoState.toRaw customersOnlyDoc (Or.inr rfl)).2.1,
    (importData_missing_field twoState.toRaw customersOnlyDoc (Or.inr rfl)).2.2.1,
    (importData_missing_field twoState.toRaw customersOnlyDoc (Or.inr rfl)).2.2.2.1⟩

/-- C19 at its failing input: importing the file
`{"customers": [null], "products": {"total": 1, "sold": 0, "price": 1, "capital": 0}}`
over the collection of Ann and Bob ends by reporting an error (the exception
comes from `renderCustomersTable`, inside the `try` block), yet by then the
in-memory customers and products and both persisted blobs have been replaced by
the contents of the file. -/
theorem importData_error_after_write :
    refreshThrows (.arr [.null]) (.obj [("total", .num 1), ("sold", .num 0),
      ("price", .num 1), ("capital", .num 0)]) = true ∧
    (importData twoState.toRaw (some nullCustomerDoc)).messages =
      twoState.toRaw.messages ++
        [{ text := "Error reading file. Please ensure it's a valid JSON file.",
           type := .error }] ∧
    (importData twoState.toRaw (some nullCustomerDoc)).customers = .arr [.null] ∧
    (importData twoState.toRaw (some nullCustomerDoc)).crm_customers = some (.arr [.null]) ∧
    (importData twoState.toRaw (some nullCustomerDoc)).customers ≠ twoState.toRaw.customers ∧
    (importData twoState.toRaw (some nullCustomerDoc)).crm_customers ≠
      twoState.toRaw.crm_customers ∧
    (importData twoState.toRaw (some nullCustomerDoc)).products ≠ twoState.toRaw.products ∧
    (importData twoState.toRaw (some nullCustomerDoc)).crm_products ≠
      twoState.toRaw.crm_products := by
  have hthrow : refreshThrows (.arr [.null]) (.obj [("total", .num 1), ("sold", .num 0),
      ("price", .num 1), ("capital", .num 0)]) = true := by decide
  obtain ⟨h1, h2, h3, h4, h5⟩ := importData_of_truthy twoState.toRaw
    [("customers", .arr [.null]),
      ("products", .obj [("total", .num 1), ("sold", .num 0), ("price", .num 1),
        ("capital", .num 0)])]
    (.arr [.null])
    (.obj [("total", .num 1), ("sold", .num 0), ("price", .num 1), ("capital", .num 0)])
    rfl rfl rfl rfl
  have hcust : twoState.toRaw.customers =
      .arr (twoState.customers.map Customer.toJson) := rfl
  have hlen : twoState.customers.length = 2 := by decide
  have hne : Json.arr [.null] ≠ .arr (twoState.customers.map Customer.toJson) := by
    intro e
    injection e with e
    have := congrArg List.length e
    simp [hlen] at this
  have hstore : twoState.toRaw.crm_customers =
      some (.arr (twoState.customers.map Customer.toJson)) := by
    have : twoState.storage.crm_customers = some twoState.customers := by decide
    simp [AppState.toRaw, this]
  have hprod : twoState.toRaw.products = AppState.initial.products.toJson := by
    have : twoState.products = AppState.initial.products := by decide
    simp [AppState.toRaw, this]
  have hpstore : twoState.toRaw.crm_products = some AppState.initial.products.toJson := by
    have : twoState.storage.crm_products = some AppState.initial.products := by decide
    simp [AppState.toRaw, this]
  have hpne : Json.obj [("total", .num 1), ("sold", .num 0), ("price", .num 1),
      ("capital", .num 0)] ≠ AppState.initial.products.toJson := by
    simp [Products.toJson, AppState.initial]
  unfold nullCustomerDoc
  refine ⟨hthrow, ?_, h1, h3, ?_, ?_, ?_, ?_⟩
  · rw [h5, if_pos hthrow]
  · rw [h1, hcust]
    exact hne
  · rw [h3, hstore]
    exact fun e => hne (Option.some.inj e)
  · rw [h2, hprod]
    exact hpne
  · rw [h4, hpstore]
    exact fun e => hpne (Option.some.inj e)

theorem jsProducts_ofJson_toJson (p : JsProducts) (hp : p.price.isFinite = true)
    (hc : p.capital.isFinite = true) : JsProducts.ofJson p.toJson = some p := by
  obtain ⟨total, sold, price, capital⟩ := p
  cases price <;> cases capital <;>
    simp_all [JsProducts.toJson, JsProducts.ofJson, JsNumber.toJson, JsNumber.isFinite]

/-- On finite numbers `handleUpdateProductsJs` is `handleUpdateProducts`. -/
theorem handleUpdateProductsJs_finite (s : AppState) (totalProducts productsSold : Int)
    (capitalAmount productPrice : Rat) :
    handleUpdateProductsJs s.toJs totalProducts productsSold (.finite capitalAmount)
        (.finite productPrice) =
      (handleUpdateProducts s totalProducts productsSold capitalAmount productPrice).toJs := by
  unfold handleUpdateProductsJs handleUpdateProducts
  simp only [JsNumber.isNegative, decide_eq_true_eq]
  split_ifs <;> rfl

/-- The exported document of a state with finite counters. -/
theorem exportData_toJs (s : AppState) (now : Nat) :
    exportData s.toJs now =
      .obj [("customers", .arr (s.customers.map Customer.toJson)),
        ("products", s.products.toJson), ("exportDate", .isoDate now)] := rfl

/-- What `importData` leaves in an empty store after reading an exported
document: the exported values, in memory and persisted. -/
theorem importData_exportData (s : JsState) (now : Nat) :
    (importData RawState.empty (some (exportData s now))).customers =
      .arr (s.customers.map Customer.toJson) ∧
    (importData RawState.empty (some (exportData s now))).products = s.products.toJson ∧
    (importData RawState.empty (some (exportData s now))).crm_customers =
      some (.arr (s.customers.map Customer.toJson)) ∧
    (importData RawState.empty (some (exportData s now))).crm_products =
      some s.products.toJson := by
  obtain ⟨h1, h2, h3, h4, _⟩ := importData_of_truthy RawState.empty
    [("customers", .arr (s.customers.map Customer.toJson)),
      ("products", s.products.toJson), ("exportDate", .isoDate now)]
    (.arr (s.customers.map Customer.toJson)) s.products.toJson
    (by simp [dictGet]) (by simp [dictGet]) rfl rfl
  exact ⟨h1, h2, h3, h4⟩

/-- C20, as stated, fails.  On a fresh page the product form with total `1`,
sold `0`, capital `0` and price `1e999` is accepted, and the counters then hold
the price `Infinity`.  The exported document holds `null` as the price, so
after importing it into an empty store the price in memory and in the persisted
blob is `null`, which is no number: the counters read back are not the
original ones. -/
theorem roundtrip_infinite_price_counterexample :
    infinitePrice.products =
      { total := 1, sold := 0, price := .posInfinity, capital := .finite 0 } ∧
    infinitePrice.messages =
      [{ text := "Products and capital updated successfully!", type := .success }] ∧
    exportData infinitePrice 5000 =
      .obj [("customers", .arr []),
        ("products", .obj [("total", .num 1), ("sold", .num 0), ("price", .null),
          ("capital", .num 0)]),
        ("exportDate", .isoDate 5000)] ∧
    (importData RawState.empty (some (exportData infinitePrice 5000))).products =
      .obj [("total", .num 1), ("sold", .num 0), ("price", .null), ("capital", .num 0)] ∧
    (importData RawState.empty (some (exportData infinitePrice 5000))).crm_products =
      some (.obj [("total", .num 1), ("sold", .num 0), ("price", .null),
        ("capital", .num 0)]) ∧
    (importData RawState.empty (some (exportData infinitePrice 5000))).products.prop "price" =
      some .null ∧
    JsProducts.ofJson (importData RawState.empty
      (some (exportData infinitePrice 5000))).products = none ∧
    ¬ ∀ (s : JsState) (now : Nat),
        JsProducts.ofJson (importData RawState.empty (some (exportData s now))).products =
          some s.products := by
  have hprod : infinitePrice.products =
      { total := 1, sold := 0, price := .posInfinity, capital := .finite 0 } := by
    simp [infinitePrice, handleUpdateProductsJs, JsNumber.isNegative, JsState.showMessage,
      JsState.saveDataToStorage]
  have hmsg : infinitePrice.messages =
      [{ text := "Products and capital updated successfully!", type := .success }] := by
    simp [infinitePrice, handleUpdateProductsJs, JsNumber.isNegative, JsState.showMessage,
      JsState.saveDataToStorage, JsState.initial, AppState.toJs, AppState.initial]
  have hcust : infinitePrice.customers = [] := by
    simp [infinitePrice, handleUpdateProductsJs, JsNumber.isNegative, JsState.showMessage,
      JsState.saveDataToStorage, JsState.initial, AppState.toJs, AppState.initial]
  have hjson : infinitePrice.products.toJson =
      .obj [("total", .num 1), ("sold", .num 0), ("price", .null), ("capital", .num 0)] := by
    rw [hprod]
    simp [JsProducts.toJson, JsNumber.toJson]
  obtain ⟨_, h2, _, h4⟩ := importData_exportData infinitePrice 5000
  rw [hjson] at h2 h4
  have hread : JsProducts.ofJson (importData RawState.empty
      (some (exportData infinitePrice 5000))).products = none := by
    rw [h2]
    rfl
  refine ⟨hprod, hmsg, ?_, h2, h4, ?_, hread, ?_⟩
  · simp [exportData, hcust, hjson]
  · rw [h2]
    rfl
  · intro hall
    have := hall infinitePrice 5000
    rw [hread] at this
    exact Option.noConfusion this

/-- C20, amended: for every state of `main.js` whose price and capital are
finite numbers (in particular every such state reached by add, edit, delete and
product-update operations), importing the document produced by `exportData`
into an empty store leaves, in memory and persisted, a customer collection that
reads back as the original list in the original order and product counters
that read back as the original counters. -/
theorem export_import_roundtrip (s : JsState) (now : Nat)
    (hprice : s.products.price.isFinite = true)
    (hcapital : s.products.capital.isFinite = true) :
    (importData RawState.empty (some (exportData s now))).customers =
      .arr (s.customers.map Customer.toJson) ∧
    (importData RawState.empty (some (exportData s now))).products = s.products.toJson ∧
    (importData RawState.empty (some (exportData s now))).crm_customers =
      some (.arr (s.customers.map Customer.toJson)) ∧
    (importData RawState.empty (some (exportData s now))).crm_products =
      some s.products.toJson ∧
    customersOfJson (importData RawState.empty (some (exportData s now))).customers =
      some s.customers ∧
    JsProducts.ofJson (importData RawState.empty (some (exportData s now))).products =
      some s.products ∧
    ((importData RawState.empty (some (exportData s now))).crm_customers.bind
      customersOfJson) = some s.customers ∧
    ((importData RawState.empty (some (exportData s now))).crm_products.bind
      JsProducts.ofJson) = some s.products := by
  obtain ⟨h1, h2, h3, h4⟩ := importData_exportData s now
  rw [h1, h2, h3, h4]
  refine ⟨rfl, rfl, rfl, rfl, customersOfJson_toJson _,
    jsProducts_ofJson_toJson _ hprice hcapital, ?_, ?_⟩
  · simp [customersOfJson_toJson]
  · simp [jsProducts_ofJson_toJson _ hprice hcapital]

/-- Witness for C20: Ann and Bob with 100 products, 25 sold, at 29.99, and a
capital of 5000. -/
theorem export_import_roundtrip_witness :
    stockedState.products.price.isFinite = true ∧
    stockedState.products.capital.isFinite = true ∧
    customersOfJson (importData RawState.empty
      (some (exportData stockedState 5000))).customers = some twoState.customers ∧
    JsProducts.ofJson (importData RawState.empty
      (some (exportData stockedState 5000))).products =
        some { total := 100, sold := 25, price := .finite (2999 / 100),
               capital := .finite 5000 } :=
  ⟨rfl, rfl,
    (export_import_roundtrip stockedState 5000 rfl rfl).2.2.2.2.1,
    (export_import_roundtrip stockedState 5000 rfl rfl).2.2.2.2.2.1⟩

/-! ## Calendar checks -/

example : (-1 : Int) / 12 = -1 := by decide
example : utcDate 1710504000000 = (2024, 2, 15) := by decide
example : utcDate 1711886400000 = (2024, 2, 31) := by decide
example : utcDate 0 = (1970, 0, 1) := by decide
example : utcDateOf 1970 0 1 = 0 := by decide
example : utcDateOf 2024 1 15 = 1707955200000 := by decide
example : utcDateOf 2024 1 31 = 1709337600000 := by decide
example : utcDateOf 2024 (-1) 15 = utcDateOf 2023 11 15 := by decide
example : oneMonthAgo utcDate utcDateOf 1710504000000 = 1707955200000 := by decide
example : oneMonthAgo utcDate utcDateOf 1723681800000 = 1721001600000 := by decide

/-! ## Required fields across operations -/

/-- C21 at its failing input: from the empty repository, add Ann and then edit
her record with a name made of blanks.  After the add every record has its
required fields; after the edit, which trims the name and performs no check,
the collection holds a record whose name is empty. -/
theorem edit_blanks_required_field :
    (∀ c ∈ (runOps [.add annForm 1000 1000]).customers, requiredFieldsPresent c) ∧
    (runOps [.add annForm 1000 1000, .edit blankNameEdit 3000]).customers =
      [editedCustomer (customerData annForm 1000 1000) blankNameEdit 3000] ∧
    (editedCustomer (customerData annForm 1000 1000) blankNameEdit 3000).name = "" ∧
    ¬ ∀ c ∈ (runOps [.add annForm 1000 1000, .edit blankNameEdit 3000]).customers,
        requiredFieldsPresent c := by
  decide

/-! ## Required fields: the operations that keep them -/

theorem dropWhile_dropWhile_self {α : Type} (p : α → Bool) (l : List α) :
    (l.dropWhile p).dropWhile p = l.dropWhile p := by
  induction l with
  | nil => rfl
  | cons a t ih =>
    by_cases h : p a = true
    · simpa [List.dropWhile, h] using ih
    · simp [List.dropWhile, h]

theorem dropWhile_stripped {α : Type} (p : α → Bool) (s : List α) :
    (((s.dropWhile p).reverse.dropWhile p).reverse).dropWhile p =
      ((s.dropWhile p).reverse.dropWhile p).reverse := by
  have hpre : ((s.dropWhile p).reverse.dropWhile p).reverse <+: s.dropWhile p := by
    rw [← List.reverse_suffix, List.reverse_reverse]
    exact List.dropWhile_suffix p
  generalize hr : ((s.dropWhile p).reverse.dropWhile p).reverse = r at hpre ⊢
  cases r with
  | nil => rfl
  | cons a r' =>
    obtain ⟨t, ht⟩ := hpre
    have hhead : (s.dropWhile p).head? = some a := by rw [← ht]; rfl
    have hpa : p a = false := by
      have := List.head?_dropWhile_not p s
      rw [hhead] at this
      simpa using this
    simp [List.dropWhile, hpa]

/-- Trimming a trimmed string changes nothing. -/
theorem trim_trim (s : String) : trim (trim s) = trim s := by
  unfold trim
  simp only [dropWhile_stripped, List.reverse_reverse, dropWhile_dropWhile_self]

/-- The add and delete operations keep the required fields of every record
non-empty; only the edit operation can blank one. -/
theorem add_delete_keep_required_fields (s : AppState)
    (h : ∀ c ∈ s.customers, requiredFieldsPresent c) :
    (∀ form idNow dateNow, ∀ c ∈ (handleAddCustomer s form idNow dateNow).customers,
      requiredFieldsPresent c) ∧
    (∀ customerId, ∀ c ∈ (handleConfirmDelete (deleteCustomer s customerId)).customers,
      requiredFieldsPresent c) := by
  constructor
  · intro form idNow dateNow c hc
    by_cases hacc : addAccepts s.customers form
    · rw [handleAddCustomer_customers_of_accepts s form idNow dateNow hacc] at hc
      rcases List.mem_append.1 hc with hc | hc
      · exact h c hc
      · have hc' : c = customerData form idNow dateNow := by simpa using hc
        subst hc'
        obtain ⟨h1, h2, h3, _⟩ := hacc
        refine ⟨?_, ?_, ?_⟩
        · show trim (trim form.customerName) ≠ ""
          rwa [trim_trim]
        · show trim (trim form.customerPhone) ≠ ""
          rwa [trim_trim]
        · show trim (trim form.customerAddress) ≠ ""
          rwa [trim_trim]
    · rw [handleAddCustomer_customers_of_not_accepts s form idNow dateNow hacc] at hc
      exact h c hc
  · intro customerId c hc
    have hsub := handleConfirmDelete_customers_sublist (deleteCustomer s customerId)
    rw [deleteCustomer_customers] at hsub
    exact h c (hsub.subset hc)

/-! ## Remaining stock -/

/-- C26 at its failing input: for the counters `{total: 10, sold: 15}`
`updateProductSummary` shows max(0, total − sold) = 0, but `generateProductChart`
computes the remaining stock as total − sold = −5, a negative number.  For
`{total: 100, sold: 25}` both give 75. -/
theorem generateProductChart_negative_remaining :
    (updateProductSummary binary64 oversold).remainingProducts = 0 ∧
    (generateProductChart binary64 oversold).remaining = -5 ∧
    (generateProductChart id oversold).remaining = -5 ∧
    (generateProductChart binary64 oversold).remaining < 0 ∧
    (updateProductSummary binary64 sampleProducts64).remainingProducts = 75 ∧
    (generateProductChart binary64 sampleProducts64).remaining = 75 := by
  refine ⟨by decide!, by decide!, by decide!, by decide!, by decide!, by decide!⟩

/-- Both places agree, and give max(0, total − sold), whenever sold ≤ total
(in exact arithmetic). -/
theorem remaining_agree_of_le (p : Products) (h : p.sold ≤ p.total) :
    (generateProductChart id p).remaining = (updateProductSummary id p).remainingProducts ∧
    (updateProductSummary id p).remainingProducts = max 0 ((p.total : Rat) - (p.sold : Rat)) := by
  have h' : (0 : Rat) ≤ (p.total : Rat) - (p.sold : Rat) := by
    have : (p.sold : Rat) ≤ (p.total : Rat) := by exact_mod_cast h
    linarith
  simp [generateProductChart, updateProductSummary, max_eq_right h']

/-! ## The recent group of the growth rate -/

/-- C27, as stated, fails (UTC).  At 12:00 on 15 March 2024 a customer added at
18:00 on 14 February is later than now minus 30 days, but is not in the recent
group: the cutoff is 00:00 on 15 February.  At 00:30 on 15 August 2024 a
customer added at 12:00 on 15 July is not later than now minus 30 days, but is
in the recent group: the cutoff is 00:00 on 15 July. -/
theorem recent_group_thirty_days_counterexample :
    (1707933600000 : Int) > 1710504000000 - 30 * 86400000 ∧
    oneMonthAgo utcDate utcDateOf 1710504000000 = 1707955200000 ∧
    recentCount [customerAddedAt 1707933600000]
      (oneMonthAgo utcDate utcDateOf 1710504000000) = 0 ∧
    ¬ ((1721044800000 : Int) > 1723681800000 - 30 * 86400000) ∧
    oneMonthAgo utcDate utcDateOf 1723681800000 = 1721001600000 ∧
    recentCount [customerAddedAt 1721044800000]
      (oneMonthAgo utcDate utcDateOf 1723681800000) = 1 := by
  decide

/-- C27, amended: `calculateGrowthRate` places a customer in the recent group
exactly when its `dateAdded` is later than the start of the day that has the
same day of the month in the previous calendar month, that is the instant of
`new Date(now.getFullYear(), now.getMonth() - 1, now.getDate())`; the result is
computed from the sizes of that group and of its complement.  In UTC, for
instance, the cutoff at 12:00 on 15 March 2024 is 00:00 on 15 February, and at
12:00 on 31 March 2024 it is 00:00 on 2 March. -/
theorem recent_group_cutoff (rnd : Rat → Rat) (localDate : Nat → Int × Nat × Nat)
    (dateOf : Int → Int → Int → Int) (customers : List Customer) (now : Nat) :
    oneMonthAgo localDate dateOf now =
      dateOf (localDate now).1 (((localDate now).2.1 : Int) - 1) ((localDate now).2.2 : Int) ∧
    recentCount customers (oneMonthAgo localDate dateOf now) =
      customers.countP (fun c => decide ((c.dateAdded : Int) >
        dateOf (localDate now).1 (((localDate now).2.1 : Int) - 1)
          ((localDate now).2.2 : Int))) ∧
    recentCount customers (oneMonthAgo localDate dateOf now) +
      previousCount customers (oneMonthAgo localDate dateOf now) = customers.length ∧
    calculateGrowthRateNow rnd localDate dateOf customers now =
      (if customers.length < 2 then 0
      else if previousCount customers (oneMonthAgo localDate dateOf now) = 0 then
        (if recentCount customers (oneMonthAgo localDate dateOf now) > 0 then 100 else 0)
      else
        rnd (rnd (rnd ((recentCount customers (oneMonthAgo localDate dateOf now) : Rat) -
            (previousCount customers (oneMonthAgo localDate dateOf now) : Rat)) /
          (previousCount customers (oneMonthAgo localDate dateOf now) : Rat)) * 100)) ∧
    oneMonthAgo utcDate utcDateOf 1710504000000 = utcDateOf 2024 1 15 ∧
    oneMonthAgo utcDate utcDateOf 1711886400000 = utcDateOf 2024 2 2 := by
  refine ⟨rfl, rfl, recent_add_previous _ _, ?_, by decide, by decide⟩
  unfold calculateGrowthRateNow
  exact calculateGrowthRate_eq rnd customers _

/-! ## Sample data -/

/-- C28: when the three readings of `Date.now()` in `generateSampleData` are
non-decreasing, the three customer ids it produces, the decimal strings of
`t0`, `t1 + 1` and `t2 + 2`, are pairwise distinct. -/
theorem generateSampleData_ids_distinct (rnd : Rat → Rat) (s : AppState)
    (t0 t1 t2 d0 d1 d2 : Nat) (h01 : t0 ≤ t1) (h12 : t1 ≤ t2) :
    (generateSampleData rnd s true t0 t1 t2 d0 d1 d2).customers.map Customer.id =
      [Nat.repr t0, Nat.repr (t1 + 1), Nat.repr (t2 + 2)] ∧
    Nat.repr t0 ≠ Nat.repr (t1 + 1) ∧
    Nat.repr t0 ≠ Nat.repr (t2 + 2) ∧
    Nat.repr (t1 + 1) ≠ Nat.repr (t2 + 2) ∧
    ((generateSampleData rnd s true t0 t1 t2 d0 d1 d2).customers.map Customer.id).Nodup := by
  have hids : (generateSampleData rnd s true t0 t1 t2 d0 d1 d2).customers.map Customer.id =
      [Nat.repr t0, Nat.repr (t1 + 1), Nat.repr (t2 + 2)] := rfl
  have h1 : Nat.repr t0 ≠ Nat.repr (t1 + 1) := fun e => by
    have := repr_injective e
    omega
  have h2 : Nat.repr t0 ≠ Nat.repr (t2 + 2) := fun e => by
    have := repr_injective e
    omega
  have h3 : Nat.repr (t1 + 1) ≠ Nat.repr (t2 + 2) := fun e => by
    have := repr_injective e
    omega
  refine ⟨hids, h1, h2, h3, ?_⟩
  rw [hids]
  simp [h1, h2, h3]

/-- Witness for C28: all three readings equal to 1000. -/
theorem generateSampleData_ids_distinct_witness :
    (1000 : Nat) ≤ 1000 ∧
    (generateSampleData binary64 AppState.initial true 1000 1000 1000 1000 1000
      1000).customers.map Customer.id = [Nat.repr 1000, Nat.repr (1000 + 1), Nat.repr (1000 + 2)] ∧
    ((generateSampleData binary64 AppState.initial true 1000 1000 1000 1000 1000
      1000).customers.map Customer.id).Nodup :=
  ⟨le_refl _,
    (generateSampleData_ids_distinct binary64 AppState.initial 1000 1000 1000 1000 1000 1000
      (le_refl _) (le_refl _)).1,
    (generateSampleData_ids_distinct binary64 AppState.initial 1000 1000 1000 1000 1000 1000
      (le_refl _) (le_refl _)).2.2.2.2⟩

/-! ## Settings page: categories -/

theorem set_length_append {α : Type} (pre : List α) (a b : α) (post : List α) :
    (pre ++ a :: post).set pre.length b = pre ++ b :: post := by
  induction pre with
  | nil => rfl
  | cons x xs ih => simp

/-- The first occurrence of a name in a category list. -/
theorem split_at_first_name (cs : List String) (name : String) (h : name ∈ cs) :
    ∃ pre post, cs = pre ++ name :: post ∧ name ∉ pre ∧
      cs.findIdx? (fun c => c == name) = some pre.length := by
  rcases findIdx?_split (fun c : String => c == name) cs with
    ⟨hall, _⟩ | ⟨pre, a, post, hl, hpre, ha, hidx⟩
  · have := hall name h
    simp at this
  · have ha' : a = name := by simpa using ha
    subst ha'
    refine ⟨pre, post, hl, ?_, hidx⟩
    intro hmem
    have := hpre a hmem
    simp at this

theorem findIdx?_name_eq_none (cs : List String) (name : String) (h : name ∉ cs) :
    cs.findIdx? (fun c => c == name) = none := by
  rw [List.findIdx?_eq_none_iff]
  intro c hc
  have : c ≠ name := fun e => h (e ▸ hc)
  simpa using this

theorem showSettingsMessage_settings (st : SettingsStore) (t : String) (k : MessageType) :
    (showSettingsMessage st t k).crm_settings = st.crm_settings := rfl

/-- C22: for every stored category list (an absent list counting as empty) and
every value of the input field, `addCategory` leaves the stored settings
unchanged when the trimmed name is empty or already in the list (exact match),
and otherwise stores the old list followed by the trimmed name as its last
element, the other sections being untouched. -/
theorem addCategory_spec (st : SettingsStore) (newCategory : String) :
    ((trim newCategory = "" ∨ trim newCategory ∈ st.settings.categories.getD []) →
      (addCategory st newCategory).crm_settings = st.crm_settings) ∧
    (trim newCategory ≠ "" → trim newCategory ∉ st.settings.categories.getD [] →
      (addCategory st newCategory).settings.categories =
        some (st.settings.categories.getD [] ++ [trim newCategory]) ∧
      (addCategory st newCategory).settings.sections = st.settings.sections) := by
  constructor
  · intro h
    unfold addCategory
    dsimp only
    split_ifs with h1 h2
    · rfl
    · rfl
    · exfalso
      rcases h with h | h
      · exact h1 h
      · exact h2 (by simpa using h)
  · intro hne hnot
    have hc : (st.settings.categories.getD []).contains (trim newCategory) = false := by
      simpa using hnot
    unfold addCategory
    dsimp only
    rw [if_neg hne]
    simp only [hc, Bool.false_eq_true, if_false]
    exact ⟨rfl, rfl⟩

/-- Witness for C22: on the default list, `Premium` is rejected and ` Gold `
is appended as `Gold`. -/
theorem addCategory_spec_witness :
    trim "Premium" ∈ freshStore.settings.categories.getD [] ∧
    (addCategory freshStore "Premium").crm_settings = freshStore.crm_settings ∧
    trim " Gold " ≠ "" ∧ trim " Gold " ∉ freshStore.settings.categories.getD [] ∧
    (addCategory freshStore " Gold ").settings.categories =
      some (freshStore.settings.categories.getD [] ++ [trim " Gold "]) :=
  ⟨by decide,
    (addCategory_spec freshStore "Premium").1 (Or.inr (by decide)),
    by decide, by decide,
    ((addCategory_spec freshStore " Gold ").2 (by decide) (by decide)).1⟩

/-- C23: renaming (`editCategory`) or removing (`deleteCategory`) a name that
is not in the stored list, or when no list is stored, leaves the stored
settings unchanged, whatever is answered to the dialogs.  When the name is in
the list, the list splits at its first occurrence: whatever is answered to the
prompt, the list stored after `editCategory` differs from the old one at most
at that position (same length, other entries unchanged), a rename to an
accepted new name (non-empty after trimming and different from the old name)
puts the trimmed new name there, a confirmed removal deletes exactly that
occurrence, and a declined removal changes nothing. -/
theorem rename_remove_spec (st : SettingsStore) (name : String) :
    ((st.settings.categories = none ∨
        ∃ cs, st.settings.categories = some cs ∧ name ∉ cs) →
      (∀ answer, (editCategory st name answer).crm_settings = st.crm_settings) ∧
      (∀ confirmed, (deleteCategory st name confirmed).crm_settings = st.crm_settings)) ∧
    (∀ cs, st.settings.categories = some cs → name ∈ cs →
      ∃ pre post, cs = pre ++ name :: post ∧ name ∉ pre ∧
        (∀ answer, ∃ x,
          (editCategory st name answer).settings.categories = some (pre ++ x :: post)) ∧
        deleteCategory st name false = st ∧
        (∀ newName, newName ≠ "" → trim newName ≠ "" → newName ≠ name →
          (editCategory st name (some newName)).settings.categories =
            some (pre ++ trim newName :: post) ∧
          (pre ++ trim newName :: post).length = cs.length ∧
          (editCategory st name (some newName)).settings.sections = st.settings.sections) ∧
        (deleteCategory st name true).settings.categories = some (pre ++ post) ∧
        (pre ++ post).length + 1 = cs.length ∧
        (deleteCategory st name true).settings.sections = st.settings.sections) := by
  constructor
  · intro h
    constructor
    · intro answer
      unfold editCategory
      cases answer with
      | none => rfl
      | some newName =>
        dsimp only
        split_ifs with hg
        · rcases h with h | ⟨cs, hcs, hnot⟩
          · rw [h]
          · rw [hcs]
            dsimp only
            rw [findIdx?_name_eq_none cs name hnot]
        · rfl
    · intro confirmed
      unfold deleteCategory
      cases confirmed with
      | false => rfl
      | true =>
        simp only [if_true]
        rcases h with h | ⟨cs, hcs, hnot⟩
        · rw [h]
        · rw [hcs]
          dsimp only
          rw [findIdx?_name_eq_none cs name hnot]
  · intro cs hcs hmem
    obtain ⟨pre, post, hl, hpre, hidx⟩ := split_at_first_name cs name hmem
    have hval : ∀ newName, newName ≠ "" ∧ trim newName ≠ "" ∧ newName ≠ name →
        (editCategory st name (some newName)).settings.categories =
          some (pre ++ trim newName :: post) := by
      intro newName hg
      have h0 : (editCategory st name (some newName)).settings.categories =
          some (cs.set pre.length (trim newName)) := by
        unfold editCategory
        dsimp only
        rw [if_pos hg, hcs]
        dsimp only
        rw [hidx]
        rfl
      rw [h0, hl, set_length_append]
    refine ⟨pre, post, hl, hpre, ?_, rfl, ?_, ?_, ?_, ?_⟩
    · intro answer
      cases answer with
      | none => exact ⟨name, by rw [← hl]; exact hcs⟩
      | some newName =>
        by_cases hg : newName ≠ "" ∧ trim newName ≠ "" ∧ newName ≠ name
        · exact ⟨trim newName, hval newName hg⟩
        · refine ⟨name, ?_⟩
          have h0 : editCategory st name (some newName) = st := by
            unfold editCategory
            dsimp only
            rw [if_neg hg]
          rw [h0, ← hl]
          exact hcs
    · intro newName h1 h2 h3
      have hg : newName ≠ "" ∧ trim newName ≠ "" ∧ newName ≠ name := ⟨h1, h2, h3⟩
      have hsec : (editCategory st name (some newName)).settings.sections =
          st.settings.sections := by
        unfold editCategory
        dsimp only
        rw [if_pos hg, hcs]
        dsimp only
        rw [hidx]
        rfl
      refine ⟨hval newName hg, ?_, hsec⟩
      rw [hl]
      simp
    · unfold deleteCategory
      simp only [if_true]
      rw [hcs]
      dsimp only
      rw [hidx]
      show some (cs.eraseIdx pre.length) = some (pre ++ post)
      rw [hl, eraseIdx_length_append]
    · rw [hl]
      simp
      omega
    · unfold deleteCategory
      simp only [if_true]
      rw [hcs]
      dsimp only
      rw [hidx]
      rfl

/-- Witness for C23: on the default list `Gold` is unknown, and `VIP` is
renamed to `Key` or removed. -/
theorem rename_remove_spec_witness :
    (∃ cs, freshStore.settings.categories = some cs ∧ "Gold" ∉ cs) ∧
    (editCategory freshStore "Gold" (some "Silver")).crm_settings = freshStore.crm_settings ∧
    (deleteCategory freshStore "Gold" true).crm_settings = freshStore.crm_settings ∧
    freshStore.settings.categories =
      some ["Regular", "VIP", "Premium", "Wholesale", "Corporate"] ∧
    "VIP" ∈ ["Regular", "VIP", "Premium", "Wholesale", "Corporate"] ∧
    (∃ pre post, ["Regular", "VIP", "Premium", "Wholesale", "Corporate"] = pre ++ "VIP" :: post ∧
      (editCategory freshStore "VIP" (some " Key ")).settings.categories =
        some (pre ++ trim " Key " :: post) ∧
      (deleteCategory freshStore "VIP" true).settings.categories = some (pre ++ post)) :=
  have hfresh : freshStore.settings.categories =
      some ["Regular", "VIP", "Premium", "Wholesale", "Corporate"] := rfl
  have habs : ∃ cs, freshStore.settings.categories = some cs ∧ "Gold" ∉ cs :=
    ⟨_, hfresh, by decide⟩
  ⟨habs,
    ((rename_remove_spec freshStore "Gold").1 (Or.inr habs)).1 (some "Silver"),
    ((rename_remove_spec freshStore "Gold").1 (Or.inr habs)).2 true,
    hfresh, by decide,
    by
      obtain ⟨pre, post, hl, _, _, _, hren, hdel, _, _⟩ :=
        (rename_remove_spec freshStore "VIP").2 _ hfresh (by decide)
      exact ⟨pre, post, hl, (hren " Key " (by decide) (by decide) (by decide)).1, hdel⟩⟩

/-- C30: renaming can break category uniqueness.  The default list has no
duplicate and contains `VIP`; after `editCategory` renames `VIP` to `Regular`
the stored list holds `Regular` twice. -/
theorem editCategory_can_duplicate :
    ∃ (st : SettingsStore) (cs : List String) (oldName newName : String),
      st.settings.categories = some cs ∧ cs.Nodup ∧ oldName ∈ cs ∧
      ∃ cs1, (editCategory st oldName (some newName)).settings.categories = some cs1 ∧
        ¬ cs1.Nodup ∧ cs1.count newName = 2 :=
  ⟨freshStore, ["Regular", "VIP", "Premium", "Wholesale", "Corporate"], "VIP", "Regular",
    rfl, by decide, by decide,
    ["Regular", "Regular", "Premium", "Wholesale", "Corporate"], rfl, by decide, by decide⟩

/-! ## Settings page: sections, defaults and cleanup -/

theorem saveSection_replaced (st : SettingsStore) (key : String) (value : Json)
    (message : String) : SectionReplaced st (saveSection st key value message) key value := by
  have hs : (saveSection st key value message).settings.sections =
      dictSet st.settings.sections key value := rfl
  refine ⟨?_, ?_, rfl, rfl⟩
  · rw [hs, dictGet_dictSet, if_pos rfl]
  · intro k hk
    rw [hs, dictGet_dictSet, if_neg (fun e => hk e.symm)]

/-- C24: for every stored settings object (an absent blob counting as the
empty object) and every form content, each of the eight section savers leaves
its own top-level section equal to the value built from the form, and leaves
every other top-level section, the category list and the stored customers as
they were. -/
theorem savers_replace_own_section (st : SettingsStore) (company : CompanyForm)
    (localization : LocalizationForm) (fields : FieldForm)
    (notifications : NotificationForm) (security : SecurityForm)
    (performance : PerformanceForm) (exportForm : ExportForm) (importForm : ImportForm) :
    SectionReplaced st (saveCompanyInfo st company) "company" company.value ∧
    SectionReplaced st (saveLocalization st localization) "localization" localization.value ∧
    SectionReplaced st (saveFieldSettings st fields) "fields" fields.value ∧
    SectionReplaced st (saveNotificationSettings st notifications) "notifications"
      notifications.value ∧
    SectionReplaced st (saveSecuritySettings st security) "security" security.value ∧
    SectionReplaced st (savePerformanceSettings st performance) "performance"
      performance.value ∧
    SectionReplaced st (saveExportSettings st exportForm) "export" exportForm.value ∧
    SectionReplaced st (saveImportSettings st importForm) "import" importForm.value :=
  ⟨saveSection_replaced _ _ _ _, saveSection_replaced _ _ _ _, saveSection_replaced _ _ _ _,
    saveSection_replaced _ _ _ _, saveSection_replaced _ _ _ _, saveSection_replaced _ _ _ _,
    saveSection_replaced _ _ _ _, saveSection_replaced _ _ _ _⟩

example : dictGet (saveCompanyInfo freshStore
    { companyName := "Acme", companyAddress := "", companyPhone := "",
      companyEmail := "" }).settings.sections "export" =
    some (.obj [("format", .str "json"), ("encoding", .str "utf8")]) := rfl

/-- C25: `loadDefaultSettings` stores the default settings when the store
holds no settings blob and changes nothing else; when a blob is stored the
whole store is returned unchanged; so the stored blob differs afterwards
exactly when there was none, and a second run changes nothing. -/
theorem loadDefaultSettings_spec (st : SettingsStore) :
    (st.crm_settings = none →
      loadDefaultSettings st = { st with crm_settings := some defaultSettings }) ∧
    (∀ blob, st.crm_settings = some blob → loadDefaultSettings st = st) ∧
    ((loadDefaultSettings st).crm_settings ≠ st.crm_settings ↔ st.crm_settings = none) ∧
    loadDefaultSettings (loadDefaultSettings st) = loadDefaultSettings st := by
  obtain ⟨blob, customers, messages⟩ := st
  cases blob with
  | none =>
    refine ⟨fun _ => rfl, fun b h => ?_, ?_, rfl⟩
    · simp at h
    · simp [loadDefaultSettings]
  | some b =>
    refine ⟨fun h => ?_, fun _ _ => rfl, ?_, rfl⟩
    · simp at h
    · simp [loadDefaultSettings]

/-- Witness for C25: the empty store receives the defaults, and the store so
obtained is left as it is. -/
theorem loadDefaultSettings_spec_witness :
    loadDefaultSettings { crm_settings := none, crm_customers := none, messages := [] } =
      { crm_settings := some defaultSettings, crm_customers := none, messages := [] } ∧
    freshStore.crm_settings = some defaultSettings ∧
    loadDefaultSettings freshStore = freshStore :=
  ⟨(loadDefaultSettings_spec
      { crm_settings := none, crm_customers := none, messages := [] }).1 rfl,
    rfl,
    (loadDefaultSettings_spec freshStore).2.1 defaultSettings rfl⟩

/-- C29: for every stored customer list (an absent list counting as empty) and
every cutoff instant, a confirmed `cleanupOldData` stores exactly the customers
whose `dateAdded` is strictly later than the cutoff, unmodified and in their
original order (a sublist of the old list); the count in its message is the
old length minus the new length, and the new list is not longer than the old
one, so the count is not negative.  The settings blob is untouched. -/
theorem cleanupOldData_spec (st : SettingsStore) (cutoff : Int) :
    (cleanupOldData st true (some cutoff)).crm_customers =
      some ((st.crm_customers.getD []).filter
        (fun c => decide ((c.dateAdded : Int) > cutoff))) ∧
    ((st.crm_customers.getD []).filter
      (fun c => decide ((c.dateAdded : Int) > cutoff))).Sublist (st.crm_customers.getD []) ∧
    (∀ c, c ∈ (st.crm_customers.getD []).filter
        (fun c => decide ((c.dateAdded : Int) > cutoff)) ↔
      (c ∈ st.crm_customers.getD [] ∧ cutoff < (c.dateAdded : Int))) ∧
    (cleanupOldData st true (some cutoff)).messages = st.messages ++
      [{ text := "Cleanup completed. Removed " ++
          Nat.repr ((st.crm_customers.getD []).length -
            ((st.crm_customers.getD []).filter
              (fun c => decide ((c.dateAdded : Int) > cutoff))).length) ++ " old records.",
         type := .success }] ∧
    (0 : Int) ≤ ((st.crm_customers.getD []).length : Int) -
      (((st.crm_customers.getD []).filter
        (fun c => decide ((c.dateAdded : Int) > cutoff))).length : Int) ∧
    (cleanupOldData st true (some cutoff)).crm_settings = st.crm_settings := by
  refine ⟨rfl, List.filter_sublist _, ?_, rfl, ?_, rfl⟩
  · intro c
    simp [List.mem_filter]
  · have := List.length_filter_le (fun c : Customer => decide ((c.dateAdded : Int) > cutoff))
      (st.crm_customers.getD [])
    omega

example : ((cleanupOldData twoCustomerStore true (some 1500)).crm_customers.getD []).map
    (fun c => c.name) = ["Bob"] := by decide

example : (cleanupOldData twoCustomerStore true (some 1500)).messages =
    [{ text := "Cleanup completed. Removed 1 old records.", type := .success }] := by decide

example (st : SettingsStore) (cutoff : Option Int) : cleanupOldData st false cutoff = st := rfl

end CRM
